import Mathlib

set_option maxRecDepth 2000

/-!
Verification development for the shipping-label form-validation and
pricing-derivation selectors of the woocommerce-services repository
(client/shipping-label state selectors, embedded here from the source).

JavaScript objects that are used as string-keyed dictionaries are embedded
as association lists `List (String × α)` with first-match lookup and
set-in-place update, which matches JS object key semantics (keys are
unique; setting an existing key keeps its position, setting a new key
appends).  JS numbers are embedded as rationals `ℚ`; a numeric field that
can be `null`/`undefined`/`NaN` is embedded as `Option ℚ` with `none` for
the absent/NaN case.  A string field that can be absent is embedded as
`""` when JS truthiness is all that matters, and as `Option String` where
the source distinguishes `undefined` from `""` (e.g. `tariffNumber`).
-/

/-- First-match lookup in a JS-object-like association list. -/
def slookup {α : Type} : List (String × α) → String → Option α
  | [], _ => none
  | (k, v) :: rest, key => if k = key then some v else slookup rest key

/-- JS-object-like key set: overwrite an existing key in place, else append. -/
def sset {α : Type} : List (String × α) → String → α → List (String × α)
  | [], key, v => [(key, v)]
  | (k, w) :: rest, key, v =>
    if k = key then (k, v) :: rest else (k, w) :: sset rest key v

/-- Read a string field of a JS object; a missing field reads as `""` (falsy). -/
def getStr (m : List (String × String)) (k : String) : String :=
  (slookup m k).getD ""

/-- Read a boolean flag of a JS object; a missing flag reads as `false` (falsy). -/
def getBool (m : List (String × Bool)) (k : String) : Bool :=
  (slookup m k).getD false

/-- lodash `uniq`, with a seen-set accumulator: keep the first occurrence
of every element, in order. -/
def jsUniqAux : List String → List String → List String
  | [], _ => []
  | a :: l, seen => if a ∈ seen then jsUniqAux l seen else a :: jsUniqAux l (a :: seen)

def jsUniq (l : List String) : List String := jsUniqAux l []

/-- NaN-propagating addition of JS numbers (`none` stands for NaN/undefined). -/
def optAdd : Option ℚ → Option ℚ → Option ℚ
  | some a, some b => some (a + b)
  | _, _ => none

/-! ## External collaborators and repository constants

The selectors read a handful of constants (`US_MILITARY_STATES`,
`ACCEPTED_USPS_ORIGIN_COUNTRIES`, `USPS_ITN_REQUIRED_DESTINATIONS`, from
`./constants`) and two collaborator selectors (`hasStates`,
`getCountryName`) that are not part of the source under verification.
They are bundled in an explicit context record, so every theorem below is
proved for all possible contents of those lists/functions. -/

structure Ctx where
  hasStates : String → Bool
  getCountryName : String → String
  acceptedUspsOriginCountries : List String
  usMilitaryStates : List String
  uspsItnRequiredDestinations : List String

/-- The `fieldsToValidate` argument: which optional phone checks to run. -/
structure FieldsToValidate where
  originPhone : Bool := false
  destinationPhone : Bool := false
  deriving DecidableEq

/-- An address record of the form state (`form.origin` / `form.destination`). -/
structure Address where
  values : List (String × String) := []
  isNormalized : Bool := false
  isUnverifiable : Bool := false
  normalized : Option (List (String × String)) := none
  ignoreValidation : Option (List (String × Bool)) := none
  fieldErrors : Option (List (String × String)) := none
  deriving DecidableEq

/-- Modelled from the spec: `lib/utils/get-address-values` is not under
`src/`.  Per the data model (§3) and glossary, a normalized address has an
authoritative server-corrected `normalized` form; the helper yields the
normalized values when the address is normalized and a normalized form is
present, and the raw `values` otherwise. -/
def getAddressValues (addressData : Address) : List (String × String) :=
  match addressData.normalized with
  | some n => if addressData.isNormalized then n else addressData.values
  | none => addressData.values

def requiredMsg : String := "This field is required"

def nameOrCompanyMsg : String := "Either Name or Company field is required"

def zipFormatMsg : String := "Invalid ZIP/Postal code format"

def originPhoneRequiredMsg : String :=
  "An origin address phone number is required for this shipment."

def phoneFormatMsg : String :=
  "Customs forms require a 10-digit phone number. Please edit your phone number so it has at most 10 digits."

def destinationPhoneRequiredMsg : String :=
  "A destination address phone number is required for this shipment."

/-- The postcode pattern from the source, regex \x5e\d5(-\d4)?$ in shorthand:
five digits, optionally followed by a dash and four more digits. -/
def zipFormatOk (s : String) : Bool :=
  let cs := s.data
  (cs.length = 5 && cs.all Char.isDigit) ||
    (cs.length = 10 && (cs.take 5).all Char.isDigit &&
      cs.get? 5 = some '-' && (cs.drop 6).all Char.isDigit)

/-- `phone.split(non-digits).join("")`: the digit characters of the phone. -/
def phoneDigits (s : String) : List Char := s.data.filter Char.isDigit

/-- `replace(leading "1", "")`: strip one leading `'1'` if present. -/
def stripLeadingOne : List Char → List Char
  | '1' :: rest => rest
  | l => l

/-- The 10-digit phone format test used for origin phones on customs forms. -/
def phoneFormatOk (phone : String) : Bool :=
  (stripLeadingOne (phoneDigits phone)).length = 10

def requiredFields : List String := ["address", "city", "postcode", "country"]

/-- Rules 1-4 of `getRawAddressErrors` (required fields, name-or-company,
ZIP format, state-required), exactly as in the source. -/
def addressFieldErrors (ctx : Ctx) (addressData : Address) : List (String × String) :=
  let values := addressData.values
  let av := getAddressValues addressData
  let name := getStr av "name"
  let company := getStr av "company"
  let postcode := getStr av "postcode"
  let state := getStr av "state"
  let country := getStr av "country"
  let errors : List (String × String) := []
  let errors := requiredFields.foldl
    (fun e field => if getStr values field = "" then sset e field requiredMsg else e) errors
  let errors :=
    if name = "" && company = "" then
      sset (sset errors "name" nameOrCompanyMsg) "company" nameOrCompanyMsg
    else errors
  let errors :=
    if ctx.acceptedUspsOriginCountries.contains country && !zipFormatOk postcode then
      sset errors "postcode" zipFormatMsg
    else errors
  if state = "" && ctx.hasStates country then sset errors "state" requiredMsg else errors

/-- The phone rules of `getRawAddressErrors` (rule 5), exactly as in the
source: the origin-phone block (required, then the 10-digit format check)
followed by the destination-phone block (required only). -/
def addressPhoneErrors (fieldsToValidate : FieldsToValidate) (phone : String)
    (errors0 : List (String × String)) : List (String × String) :=
  let errors :=
    if fieldsToValidate.originPhone then
      if phone = "" then sset errors0 "phone" originPhoneRequiredMsg
      else if !phoneFormatOk phone then sset errors0 "phone" phoneFormatMsg
      else errors0
    else errors0
  if fieldsToValidate.destinationPhone && phone = "" then
    sset errors "phone" destinationPhoneRequiredMsg
  else errors

/-- `getRawAddressErrors` from the source: the full address rule set. -/
def getRawAddressErrors (ctx : Ctx) (addressData : Address)
    (fieldsToValidate : FieldsToValidate) : List (String × String) :=
  addressPhoneErrors fieldsToValidate (getStr (getAddressValues addressData) "phone")
    (addressFieldErrors ctx addressData)

def addressNotRecognizedMsg : String :=
  "This address is not recognized. Please try another."

/-- `getAddressErrors` from the source: bypass on server-validated
unnormalizable addresses, the not-recognized synthetic error, the full rule
set, and the `ignoreValidation` suppression pass (which the source applies
only to the full-rule-set result). -/
def getAddressErrors (ctx : Ctx) (addressData : Address)
    (fieldsToValidate : FieldsToValidate) : List (String × String) :=
  if (addressData.isNormalized || addressData.isUnverifiable) &&
      addressData.normalized.isNone && addressData.fieldErrors.isSome then
    addressData.fieldErrors.getD []
  else if addressData.isNormalized && addressData.normalized.isNone then
    [("address", addressNotRecognizedMsg)]
  else
    let errors := getRawAddressErrors ctx addressData fieldsToValidate
    match addressData.ignoreValidation with
    | some ig => errors.filter (fun kv => !getBool ig kv.1)
    | none => errors

/-- A concrete collaborator context used by the concrete evaluations below. -/
def defaultCtx : Ctx :=
  { hasStates := fun _ => false, getCountryName := fun s => s,
    acceptedUspsOriginCountries := [], usMilitaryStates := [],
    uspsItnRequiredDestinations := [] }

def c1addr : Address :=
  { values := [], isNormalized := true, normalized := none,
    ignoreValidation := some [("state", true)],
    fieldErrors := some [("state", "Invalid state")] }

def c1addr2 : Address :=
  { values := [("address", "a"), ("name", "N"), ("city", "")],
    ignoreValidation := some [("city", true)] }

def c4addr : Address := { values := [] }

def c9addr : Address :=
  { values := [("country", "US"), ("state", ""), ("address", "1 Main St"),
      ("city", "Seattle"), ("postcode", "98101"), ("name", "Ada")],
    ignoreValidation := some [("state", true)] }

def c9ctx : Ctx :=
  { hasStates := fun c => c == "US", getCountryName := fun s => s,
    acceptedUspsOriginCountries := ["US"], usMilitaryStates := [],
    uspsItnRequiredDestinations := [] }

/-! ## Packages -/

/-- One line item of a package (`pckg.items` entries). -/
structure PackageItem where
  product_id : String
  quantity : ℚ := 1
  deriving DecidableEq

/-- A package of the form state (`form.packages.selected` values).
Dimension fields are `Option ℚ`: `none` embeds a value that is not a
finite JS number (absent, string, NaN), which lodash `isFinite` rejects.
String fields use `""` for an absent (falsy) value. -/
structure Package where
  box_id : String := ""
  items : List PackageItem := []
  weight : Option ℚ := none
  length : Option ℚ := none
  width : Option ℚ := none
  height : Option ℚ := none
  contentsType : String := ""
  contentsExplanation : String := ""
  restrictionType : String := ""
  restrictionComments : String := ""
  itn : String := ""
  deriving DecidableEq

def selectPackageMsg : String := "Please select a package"

def invalidWeightMsg : String := "Invalid weight"

def dimensionsMsg : String := "Package dimensions must be greater than zero"

/-- `! isFinite(dimension) || 0 >= dimension` from the source. -/
def isInvalidDimension : Option ℚ → Bool
  | none => true
  | some q => decide (0 ≥ q)

/-- `getPackagesErrors` from the source. -/
def getPackagesErrors (values : List (String × Package)) :
    List (String × List (String × String)) :=
  values.map (fun kv =>
    (kv.1,
      let pckg := kv.2
      let errors : List (String × String) := []
      let errors :=
        if pckg.box_id = "not_selected" then sset errors "box_id" selectPackageMsg else errors
      let errors :=
        if isInvalidDimension pckg.weight then sset errors "weight" invalidWeightMsg else errors
      if [pckg.length, pckg.width, pckg.height].any isInvalidDimension then
        sset errors "dimensions" dimensionsMsg
      else errors))

/-! ## Customs -/

/-- One customs line item (`customs.items` values).  `weight` and `value`
are `Option ℚ` (`none` for nil/empty, which produce the required-field
error and NaN arithmetic); `tariffNumber` is `Option String` because the
source distinguishes `isNil` (missing) from `""` (present but falsy). -/
structure CustomsItem where
  description : String := ""
  weight : Option ℚ := none
  value : Option ℚ := none
  tariffNumber : Option String := none
  deriving DecidableEq

/-- The customs declaration subtree (`form.customs`). -/
structure Customs where
  items : List (String × CustomsItem) := []
  ignoreWeightValidation : List (String × Bool) := []
  ignoreValueValidation : List (String × Bool) := []
  deriving DecidableEq

/-- `flatten(map(packages, pckg => pckg.items))`: all items of all packages
in package order. -/
def allPackageItems (packages : List (String × Package)) : List PackageItem :=
  (packages.map (fun kv => kv.2.items)).flatten

/-- `uniq(flatten(map(packages, pckg => map(pckg.items, "product_id"))))`. -/
def usedProductIds (packages : List (String × Package)) : List String :=
  jsUniq ((allPackageItems packages).map (fun it => it.product_id))

/-- One `+=` step of the by-product-id value accumulation:
`valuesByProductId[product_id] += quantity * customs.items[product_id].value`.
Reading `customs.items[product_id]` of a missing product id is the crash
the source would hit, hence the outer `Option`. -/
def vbpStep (customs : Customs) (m : String → Option ℚ) (it : PackageItem) :
    Option (String → Option ℚ) :=
  match slookup customs.items it.product_id with
  | none => none
  | some ci =>
    some (fun pid =>
      if pid = it.product_id then optAdd (m it.product_id) (ci.value.map (fun v => it.quantity * v))
      else m pid)

def vbpFold (customs : Customs) : List PackageItem → (String → Option ℚ) →
    Option (String → Option ℚ)
  | [], m => some m
  | it :: rest, m =>
    match vbpStep customs m it with
    | none => none
    | some m2 => vbpFold customs rest m2

/-- `zipObject(usedProductIds, fill(Array(...), 0))`: every used product id
starts at 0; other keys are absent (`none`). -/
def initVBP (packages : List (String × Package)) : String → Option ℚ :=
  fun pid => if pid ∈ usedProductIds packages then some 0 else none

/-- The first aggregation pass of `getCustomsErrors`: declared value per
product id, summed over all packages' items. -/
def computeValuesByProductId (packages : List (String × Package)) (customs : Customs) :
    Option (String → Option ℚ) :=
  vbpFold customs (allPackageItems packages) (initVBP packages)

/-- `pick(customs.items, usedProductIds)` in used-product-id order. -/
def pickedItems (used : List String) (customs : Customs) :
    List (String × CustomsItem) :=
  used.filterMap (fun pid => (slookup customs.items pid).map (fun ci => (pid, ci)))

/-- One step of the by-tariff-number accumulation.  The source resets a
falsy accumulated cell (absent, 0 or NaN) to 0 before `+=`, which is
exactly `(m tn).getD 0`; only tariff numbers of exactly 6 characters are
aggregated (an empty tariff number is falsy and has length 0). -/
def vbtStep (vbp : String → Option ℚ) (m : String → Option ℚ)
    (p : String × CustomsItem) : String → Option ℚ :=
  match p.2.tariffNumber with
  | none => m
  | some tn =>
    if tn.length = 6 then
      fun code => if code = tn then optAdd (some ((m tn).getD 0)) (vbp p.1) else m code
    else m

/-- The second aggregation pass of `getCustomsErrors`: declared value per
6-character tariff number, over the picked used customs items. -/
def computeValuesByTariffNumber (used : List String) (customs : Customs)
    (vbp : String → Option ℚ) : String → Option ℚ :=
  (pickedItems used customs).foldl (vbtStep vbp) (fun _ => none)

/-- JS `Set` insertion: append if not already present. -/
def addClass (l : List String) (tn : String) : List String :=
  if tn ∈ l then l else l ++ [tn]

/-- The `classesAbove2500usd` set of one package, in item order.  Reading
`customs.items[product_id]` of a missing id is the source's crash (outer
`Option`); a tariff code that was never aggregated (absent) or whose
aggregate is NaN compares false against 2500. -/
def classesAbove2500 (customs : Customs) (vbt : String → Option ℚ) :
    List PackageItem → List String → Option (List String)
  | [], acc => some acc
  | it :: rest, acc =>
    match slookup customs.items it.product_id with
    | none => none
    | some ci =>
      let acc2 :=
        match ci.tariffNumber with
        | some tn =>
          match vbt tn with
          | some q => if 2500 < q then addClass acc tn else acc
          | none => acc
        | none => acc
      classesAbove2500 customs vbt rest acc2

def contentsExplanationMsg : String :=
  "Please describe what kind of goods this package contains"

def restrictionCommentsMsg : String :=
  "Please describe what kind of restrictions this package must have"

def invalidFormatMsg : String := "Invalid format"

def itnThresholdMsg (code : String) : String :=
  "International Transaction Number is required for shipping items valued over $2,500 per tariff number. Products with tariff number " ++
    code ++ " add up to more than $2,500."

def itnDestinationMsg (country : String) : String :=
  "International Transaction Number is required for shipments to " ++ country

/-- The ITN format regex: "AES X" followed by 14 digits. -/
def itnAES : List Char → Bool
  | 'A' :: 'E' :: 'S' :: ' ' :: 'X' :: rest => rest.length = 14 && rest.all Char.isDigit
  | _ => false

/-- The optional NOEEI suffix: "(x)" with a lowercase letter, optionally
followed by "(d)" with one digit, then end of string. -/
def noeeiSuffix : List Char → Bool
  | [] => true
  | '(' :: c :: ')' :: rest =>
    c.isLower &&
      (match rest with
       | [] => true
       | '(' :: d :: ')' :: [] => d.isDigit
       | _ => false)
  | _ => false

/-- "NOEEI 30." followed by 1-2 digits and the optional suffix. -/
def itnNOEEI : List Char → Bool
  | 'N' :: 'O' :: 'E' :: 'E' :: 'I' :: ' ' :: '3' :: '0' :: '.' :: d1 :: rest =>
    d1.isDigit &&
      (match rest with
       | d2 :: rest2 => if d2.isDigit then noeeiSuffix rest2 else noeeiSuffix (d2 :: rest)
       | [] => true)
  | _ => false

/-- The ITN format test of the source (regex of the two families). -/
def itnFormatOk (s : String) : Bool :=
  itnAES s.data || itnNOEEI s.data

/-- Per-package customs errors: contents/restriction explanations and the
ITN checks, exactly as in the source. -/
def pckgCustomsErrors (ctx : Ctx) (customs : Customs) (vbt : String → Option ℚ)
    (destinationCountryCode destinationCountryName : String) (pckg : Package) :
    Option (List (String × String)) :=
  let errors : List (String × String) := []
  let errors :=
    if pckg.contentsType = "other" && pckg.contentsExplanation = "" then
      sset errors "contentsExplanation" contentsExplanationMsg
    else errors
  let errors :=
    if pckg.restrictionType = "other" && pckg.restrictionComments = "" then
      sset errors "restrictionComments" restrictionCommentsMsg
    else errors
  match classesAbove2500 customs vbt pckg.items [] with
  | none => none
  | some classes =>
    some
      (if pckg.itn ≠ "" then
        if !itnFormatOk pckg.itn then sset errors "itn" invalidFormatMsg else errors
      else if destinationCountryCode ≠ "CA" then
        match classes with
        | c :: _ => sset errors "itn" (itnThresholdMsg c)
        | [] =>
          if ctx.uspsItnRequiredDestinations.contains destinationCountryCode then
            sset errors "itn" (itnDestinationMsg destinationCountryName)
          else errors
      else errors)

def descriptionMsg : String :=
  "You must provide a clear, specific description for every item."

def weightPositiveMsg : String := "Weight must be greater than zero"

def valuePositiveMsg : String := "Declared value must be greater than zero"

def tariffLengthMsg : String := "The tariff number must be 6 digits long"

/-- Per-item customs errors (description, weight, value, tariff length),
exactly as in the source. -/
def itemCustomsErrors (customs : Customs) (pid : String) (itemData : CustomsItem) :
    List (String × String) :=
  let itemErrors : List (String × String) := []
  let itemErrors :=
    if itemData.description.length < 3 then
      sset itemErrors "description" descriptionMsg
    else itemErrors
  let itemErrors :=
    if !getBool customs.ignoreWeightValidation pid then
      match itemData.weight with
      | none => sset itemErrors "weight" requiredMsg
      | some w => if ¬w > 0 then sset itemErrors "weight" weightPositiveMsg else itemErrors
    else itemErrors
  let itemErrors :=
    if !getBool customs.ignoreValueValidation pid then
      match itemData.value with
      | none => sset itemErrors "value" requiredMsg
      | some v => if ¬v > 0 then sset itemErrors "value" valuePositiveMsg else itemErrors
    else itemErrors
  match itemData.tariffNumber with
  | some tn =>
    if tn ≠ "" && tn.length ≠ 6 then sset itemErrors "tariffNumber" tariffLengthMsg
    else itemErrors
  | none => itemErrors

/-- The per-package half of the customs error report, in package order;
`none` on the crash the source would hit for a missing customs item. -/
def pkgErrorsList (ctx : Ctx) (customs : Customs) (vbt : String → Option ℚ)
    (destCode destName : String) :
    List (String × Package) → Option (List (String × List (String × String)))
  | [] => some []
  | (pkgId, pckg) :: rest =>
    match pckgCustomsErrors ctx customs vbt destCode destName pckg with
    | none => none
    | some e => (pkgErrorsList ctx customs vbt destCode destName rest).map
        (fun l => (pkgId, e) :: l)

/-- The result shape of `getCustomsErrors`. -/
structure CustomsErrors where
  packages : List (String × List (String × String))
  items : List (String × List (String × String))
  deriving DecidableEq

/-- `getCustomsErrors` from the source.  `none` embeds the runtime crash on
a package item whose product id has no `customs.items` entry. -/
def getCustomsErrors (ctx : Ctx) (packages : List (String × Package))
    (customs : Customs) (destinationCountryCode destinationCountryName : String) :
    Option CustomsErrors :=
  let used := usedProductIds packages
  match computeValuesByProductId packages customs with
  | none => none
  | some vbp =>
    let vbt := computeValuesByTariffNumber used customs vbp
    match pkgErrorsList ctx customs vbt destinationCountryCode destinationCountryName
        packages with
    | none => none
    | some pkgErrs =>
      some
        { packages := pkgErrs,
          items := (pickedItems used customs).map
            (fun p => (p.1, itemCustomsErrors customs p.1 p.2)) }

/-! ## Rates -/

/-- A provider error attached to a rate quote; `""` embeds an absent
(falsy) message. -/
structure RateError where
  userMessage : String := ""
  message : String := ""
  deriving DecidableEq

/-- One server-quoted rate. -/
structure RateObject where
  service_id : String := ""
  rate : ℚ := 0
  retail_rate : ℚ := 0
  title : String := ""
  carrier_id : String := ""
  deriving DecidableEq

/-- One quote group (a `rates`/`errors` pair). -/
structure QuoteGroup where
  rates : List RateObject := []
  errors : List RateError := []
  deriving DecidableEq

/-- The available quotes for one package: the `default` group (named
`rdefault` here because `default` is taken in Lean) plus the other
signature-level groups keyed by level name. -/
structure PackageRates where
  rdefault : QuoteGroup := {}
  bySignature : List (String × QuoteGroup) := []
  deriving DecidableEq

/-- The user's rate pick for one package. -/
structure RateSelectionValue where
  serviceId : String := ""
  signatureRequired : String := ""
  deriving DecidableEq

/-- The `form.rates` subtree. -/
structure RatesForm where
  values : List (String × RateSelectionValue) := []
  available : List (String × PackageRates) := []
  retrievalInProgress : Bool := false
  deriving DecidableEq

def couldNotGetRateMsg : String :=
  "We couldn\x27t get a rate for this package, please try again."

def noRatesMsg : String :=
  "No rates available, please double check dimensions and weight or try using different packaging."

def chooseRateMsg : String := "Please choose a rate"

/-- The no-selection tail of the per-package rates errors. -/
def noSelectionErrors (rate : PackageRates) : List String :=
  if rate.rdefault.rates = [] then [noRatesMsg] else [chooseRateMsg]

/-- The per-package body of `getRatesErrors`, exactly as in the source. -/
def ratePackageErrors (sel : Option RateSelectionValue) (rate : PackageRates) :
    List String :=
  if rate.rdefault.errors ≠ [] then
    let messages :=
      (rate.rdefault.errors.map
        (fun err => if err.userMessage ≠ "" then err.userMessage else err.message)).filter
        (fun m => m ≠ "")
    if messages ≠ [] then messages else [couldNotGetRateMsg]
  else
    match sel with
    | some s => if s.serviceId ≠ "" then [] else noSelectionErrors rate
    | none => noSelectionErrors rate

/-- `getRatesErrors` from the source: `mapValues(allRates, ...)`. -/
def getRatesErrors (ratesForm : RatesForm) : List (String × List String) :=
  ratesForm.available.map
    (fun kv => (kv.1, ratePackageErrors (slookup ratesForm.values kv.1) kv.2))

/-! ## Price breakdown -/

structure PriceAddon where
  title : String
  rate : ℚ
  deriving DecidableEq

structure PriceLine where
  title : String
  retailRate : ℚ
  rateWithDiscount : ℚ
  addons : List PriceAddon
  carrierId : String
  carrierTitle : String
  deriving DecidableEq

structure PriceBreakdown where
  prices : List PriceLine
  discount : ℚ
  total : ℚ
  deriving DecidableEq

/-- lodash `round(x, 2)`: `Math.round(x * 100) / 100`, with `Math.round`
rounding half toward positive infinity. -/
def round2 (q : ℚ) : ℚ := (⌊q * 100 + 1 / 2⌋ : ℚ) / 100

/-- `foundRate.title.split("-")[0].trim()`. -/
def carrierTitleOf (title : String) : String :=
  ((title.splitOn "-").headD "").trim

/-- `signatureRequired in availableRates[packageId]` then
`find(signatureRates, r => serviceId === r.service_id) || null`: the
signature-level group keys are the `bySignature` keys plus `"default"`. -/
def sigFound (available : PackageRates) (sel : RateSelectionValue) :
    Option RateObject :=
  let group :=
    if sel.signatureRequired = "default" then some available.rdefault
    else slookup available.bySignature sel.signatureRequired
  match group with
  | some g => g.rates.find? (fun r => sel.serviceId = r.service_id)
  | none => none

/-- The price line and charged total of one matched package, exactly as in
the source (`rateWithDiscount` is the base rate; a matched signature-level
quote adds the addon and replaces the charged total). -/
def priceLineFor (foundRate : RateObject) (sig : Option RateObject) :
    PriceLine × ℚ :=
  match sig with
  | some fr =>
    ({ title := foundRate.title, retailRate := foundRate.retail_rate,
       rateWithDiscount := foundRate.rate,
       addons := [{ title := "Signature Required", rate := fr.rate - foundRate.rate }],
       carrierId := foundRate.carrier_id,
       carrierTitle := carrierTitleOf foundRate.title }, fr.rate)
  | none =>
    ({ title := foundRate.title, retailRate := foundRate.retail_rate,
       rateWithDiscount := foundRate.rate, addons := [],
       carrierId := foundRate.carrier_id,
       carrierTitle := carrierTitleOf foundRate.title }, foundRate.rate)

/-- One iteration of the `for (const packageId in selectedRates)` loop of
`getTotalPriceBreakdown`; the accumulator is (prices, discount, total). -/
def breakdownStep (available : List (String × PackageRates))
    (acc : List PriceLine × ℚ × ℚ) (kv : String × RateSelectionValue) :
    List PriceLine × ℚ × ℚ :=
  match slookup available kv.1 with
  | none => acc
  | some pr =>
    match pr.rdefault.rates.find? (fun r => kv.2.serviceId = r.service_id) with
    | none => acc
    | some foundRate =>
      let pl := priceLineFor foundRate (sigFound pr kv.2)
      (acc.1 ++ [pl.1], acc.2.1 + round2 (foundRate.retail_rate - foundRate.rate),
        acc.2.2 + pl.2)

/-- `getTotalPriceBreakdown` from the source (the inner computation over
`form.rates`; a missing form returns null upstream and is not part of the
claims).  Returns `none` when no package produced a price line. -/
def getTotalPriceBreakdown (ratesForm : RatesForm) : Option PriceBreakdown :=
  let r := ratesForm.values.foldl (breakdownStep ratesForm.available) ([], 0, 0)
  if r.1 = [] then none
  else some { prices := r.1, discount := r.2.1, total := r.2.2 }

/-! ## The form, customs requirement and the step gate -/

/-- The form subtree of one shipping label (`shippingLabel.form`);
`packages` is `form.packages.selected`. -/
structure Form where
  origin : Address := {}
  destination : Address := {}
  packages : List (String × Package) := []
  customs : Customs := {}
  rates : RatesForm := {}
  deriving DecidableEq

/-- `isCustomsFormRequired` from the source (the inner computation; the
memoising `createSelector` wrapper and the empty-form guard concern the
surrounding state container). -/
def isCustomsFormRequired (ctx : Ctx) (form : Form) : Bool :=
  let origin := getAddressValues form.origin
  if getStr origin "country" = "US" &&
      ctx.usMilitaryStates.contains (getStr origin "state") then true
  else
    let destination := getAddressValues form.destination
    if getStr destination "country" = "US" &&
        ctx.usMilitaryStates.contains (getStr destination "state") then true
    else getStr origin "country" ≠ getStr destination "country"

/-- `isCustomsFormStepSubmitted` from the source: no used product may have
a nil tariff number or a set ignore-weight/ignore-value flag.  `none`
embeds the crash on a used product id missing from `customs.items`. -/
def submittedFlags (customs : Customs) : List String → Option (List Bool)
  | [] => some []
  | pid :: rest =>
    match slookup customs.items pid with
    | none => none
    | some it =>
      (submittedFlags customs rest).map
        (fun l =>
          (it.tariffNumber.isNone || getBool customs.ignoreWeightValidation pid ||
            getBool customs.ignoreValueValidation pid) :: l)

def isCustomsFormStepSubmitted (form : Form) : Option Bool :=
  (submittedFlags form.customs (usedProductIds form.packages)).map
    (fun flags => !flags.any id)

/-! Modelled from the spec: `hasNonEmptyLeaves` comes from
`lib/utils/tree`, which is not under `src/`.  Per the spec (§4.4) a step
fails when its error map "has any non-empty leaf"; the leaf shapes that
occur here are flat field-to-message maps, maps of such maps, and maps of
message lists. -/

/-- Modelled from the spec: a flat error map has a non-empty leaf. -/
def errorMapHasNonEmptyLeaves (m : List (String × String)) : Bool :=
  m.any (fun kv => kv.2 ≠ "")

/-- Modelled from the spec: a map of error maps has a non-empty leaf. -/
def errorMapsHaveNonEmptyLeaves (m : List (String × List (String × String))) : Bool :=
  m.any (fun kv => errorMapHasNonEmptyLeaves kv.2)

/-- Modelled from the spec: the customs error report has a non-empty leaf. -/
def customsErrorsHaveNonEmptyLeaves (c : CustomsErrors) : Bool :=
  errorMapsHaveNonEmptyLeaves c.packages || errorMapsHaveNonEmptyLeaves c.items

/-- Modelled from the spec: a map of message lists has a non-empty leaf. -/
def ratesErrorsHaveNonEmptyLeaves (m : List (String × List String)) : Bool :=
  m.any (fun kv => kv.2.any (fun s => s ≠ ""))

def getSidebarErrors (paperSize : String) : List (String × String) :=
  if paperSize = "" then [("paperSize", requiredMsg)] else []

/-- The combined error report of `getFormErrors`. -/
structure FormErrors where
  origin : List (String × String)
  destination : List (String × String)
  packages : List (String × List (String × String))
  customs : CustomsErrors
  rates : List (String × List String)
  sidebar : List (String × String)
  deriving DecidableEq

/-- `getFormErrors` from the source (the inner computation over a loaded
form).  `none` embeds the crash inherited from `getCustomsErrors`. -/
def getFormErrors (ctx : Ctx) (paperSize : String) (form : Form) :
    Option FormErrors :=
  let destinationCountryCode := getStr form.destination.values "country"
  let destinationCountryName := ctx.getCountryName destinationCountryCode
  let shouldValidatePhone := isCustomsFormRequired ctx form
  match getCustomsErrors ctx form.packages form.customs destinationCountryCode
      destinationCountryName with
  | none => none
  | some customsErrors =>
    some
      { origin := getAddressErrors ctx form.origin { originPhone := shouldValidatePhone },
        destination := getAddressErrors ctx form.destination
          { destinationPhone := shouldValidatePhone },
        packages := getPackagesErrors form.packages,
        customs := customsErrors,
        rates := getRatesErrors form.rates,
        sidebar := getSidebarErrors paperSize }

/-- lodash `isEqual` on two JS string maps: same keys, same values
(insertion order does not matter). -/
def smapEquiv (m1 m2 : List (String × String)) : Bool :=
  (m1 ++ m2).all (fun kv => slookup m1 kv.1 = slookup m2 kv.1)

/-- `form.origin.isNormalized && isEqual(values, normalized)` fails:
comparing against a missing `normalized` is falsy. -/
def addressNormEq (a : Address) : Bool :=
  match a.normalized with
  | some n => smapEquiv a.values n
  | none => false

def originStepFails (form : Form) (errors : FormErrors) : Bool :=
  !form.origin.isNormalized || !addressNormEq form.origin ||
    errorMapHasNonEmptyLeaves errors.origin

def destinationStepFails (form : Form) (errors : FormErrors) : Bool :=
  !form.destination.isNormalized || !addressNormEq form.destination ||
    errorMapHasNonEmptyLeaves errors.destination

def packagesStepFails (errors : FormErrors) : Bool :=
  errorMapsHaveNonEmptyLeaves errors.packages

def customsStepFails (required : Bool) (errors : FormErrors) (submitted : Bool) : Bool :=
  required && (customsErrorsHaveNonEmptyLeaves errors.customs || !submitted)

def ratesStepFails (errors : FormErrors) : Bool :=
  ratesErrorsHaveNonEmptyLeaves errors.rates

/-- `getFirstErroneousStep` from the source.  The outer `Option` embeds
the crash inherited from `getFormErrors`/`isCustomsFormStepSubmitted`; the
inner `Option String` is the returned step name or null.  The customs
check preserves the source's short-circuit: `isCustomsFormStepSubmitted`
is only evaluated when a customs form is required and the customs error
map has no non-empty leaf. -/
def getFirstErroneousStep (ctx : Ctx) (paperSize : String) (form : Form) :
    Option (Option String) :=
  match getFormErrors ctx paperSize form with
  | none => none
  | some errors =>
    if originStepFails form errors then some (some "origin")
    else if destinationStepFails form errors then some (some "destination")
    else if packagesStepFails errors then some (some "packages")
    else if isCustomsFormRequired ctx form then
      if customsErrorsHaveNonEmptyLeaves errors.customs then some (some "customs")
      else
        match isCustomsFormStepSubmitted form with
        | none => none
        | some submitted =>
          if !submitted then some (some "customs")
          else if ratesStepFails errors then some (some "rates")
          else some none
    else if ratesStepFails errors then some (some "rates")
    else some none

/-- C6 concrete same-country, non-military form: Guam to Guam. -/
def c6guForm : Form :=
  { origin := { values := [("country", "GU"), ("state", "")] },
    destination := { values := [("country", "GU"), ("state", "")] } }

def c6guCtx : Ctx :=
  { hasStates := fun _ => false, getCountryName := fun s => s,
    acceptedUspsOriginCountries := [],
    usMilitaryStates := ["AA", "AE", "AP"],
    uspsItnRequiredDestinations := [] }

/-! ## C8: price breakdown characterization -/

/-- The selections that produce a price line: those whose package id has
available quotes and whose service id is found in the default rate list. -/
def matchedOf (available : List (String × PackageRates))
    (l : List (String × RateSelectionValue)) :
    List (RateSelectionValue × PackageRates × RateObject) :=
  l.filterMap (fun kv =>
    (slookup available kv.1).bind (fun pr =>
      (pr.rdefault.rates.find? (fun r => kv.2.serviceId = r.service_id)).map
        (fun r => (kv.2, pr, r))))

def matchedSelections (ratesForm : RatesForm) :
    List (RateSelectionValue × PackageRates × RateObject) :=
  matchedOf ratesForm.available ratesForm.values

/-- The charged rate of a matched package: the signature-tier rate when a
signature-level quote matches, otherwise the base rate. -/
def chargedRate (sel : RateSelectionValue) (pr : PackageRates) (r : RateObject) : ℚ :=
  match sigFound pr sel with
  | some fr => fr.rate
  | none => r.rate

def c8rate : RateObject :=
  { service_id := "usps_priority", rate := 5.95, retail_rate := 7.00,
    title := "USPS - Priority Mail", carrier_id := "usps" }

def c8form : RatesForm :=
  { values := [("default_box", { serviceId := "usps_priority" })],
    available := [("default_box", { rdefault := { rates := [c8rate] } })] }

def c8line : PriceLine :=
  { title := "USPS - Priority Mail", retailRate := 7,
    rateWithDiscount := 5.95, addons := [], carrierId := "usps",
    carrierTitle := "USPS" }

def c8b : PriceBreakdown :=
  { prices := [c8line], discount := 1.05, total := 5.95 }

/-- The per-package rate messages as the claim words them: with provider
errors on the default quote, the user-facing (or raw) messages with blanks
removed, falling back to the generic could-not-get-a-rate message when all
are blank; else no error when a service is selected; else the no-rates
message when the default rate list is empty; else the choose-a-rate
message. -/
def ratesErrorsClaim (sel : Option RateSelectionValue) (pr : PackageRates) :
    List String :=
  if pr.rdefault.errors = [] then
    match sel with
    | some s =>
      if s.serviceId ≠ "" then []
      else if pr.rdefault.rates = [] then [noRatesMsg] else [chooseRateMsg]
    | none => if pr.rdefault.rates = [] then [noRatesMsg] else [chooseRateMsg]
  else
    let ms := pr.rdefault.errors.filterMap (fun err =>
      let m := if err.userMessage ≠ "" then err.userMessage else err.message
      if m = "" then none else some m)
    if ms = [] then [couldNotGetRateMsg] else ms

/-- The declared value of one product id as the claim words it: the sum
over all items carrying that product id of quantity times the product's
customs value. -/
def productValueSum (items : List PackageItem) (customs : Customs) (pid : String) : ℚ :=
  ((items.filter (fun it => it.product_id = pid)).map
    (fun it => it.quantity *
      ((slookup customs.items it.product_id).bind (fun ci => ci.value)).getD 0)).sum

def c10packages : List (String × Package) :=
  [("1", { items := [{ product_id := "missing" }] })]

def c10customs : Customs := {}

def c3packages : List (String × Package) :=
  [("1", { items := [{ product_id := "pA" }] }),
   ("2", { items := [{ product_id := "pB" }] })]

def c3customs : Customs :=
  { items :=
      [("pA", { description := "Gadgets", weight := some 1, value := some 1500,
                tariffNumber := some "123456" }),
       ("pB", { description := "Widgets", weight := some 1, value := some 1200,
                tariffNumber := some "123456" })] }

/-! ## C5/C2: the step gate -/

/-- The ordered step checks of the claim: name and fail flag per step. -/
def stepChecks (ctx : Ctx) (form : Form) (errors : FormErrors) (submitted : Bool) :
    List (String × Bool) :=
  [("origin", originStepFails form errors),
   ("destination", destinationStepFails form errors),
   ("packages", packagesStepFails errors),
   ("customs", customsStepFails (isCustomsFormRequired ctx form) errors submitted),
   ("rates", ratesStepFails errors)]

/-- The first failing step in the fixed order, as the claim words it. -/
def firstFailingStep (ctx : Ctx) (form : Form) (errors : FormErrors)
    (submitted : Bool) : Option String :=
  ((stepChecks ctx form errors submitted).find? (fun c => c.2)).map (fun c => c.1)

def c5form : Form :=
  { origin := { values := [] },
    destination := { values := [] },
    packages := [("b1", { box_id := "not_selected" })],
    customs := {},
    rates := {} }

def emptyFormErrors : FormErrors :=
  { origin := [], destination := [], packages := [], customs := { packages := [], items := [] },
    rates := [], sidebar := [] }

def c2values : List (String × String) :=
  [("address", "1 Main St"), ("city", "San Jose"), ("postcode", "95113"),
   ("country", "US"), ("name", "Ann"), ("phone", "2345678901"), ("state", "CA")]

def c2dvalues : List (String × String) :=
  [("address", "2 Calle"), ("city", "San Juan"), ("postcode", "00901"),
   ("country", "PR"), ("name", "Bea"), ("phone", "5")]

def c2pkg : Package :=
  { box_id := "box", items := [{ product_id := "p1" }], weight := some 1,
    length := some 1, width := some 1, height := some 1 }

def c2item : CustomsItem :=
  { description := "Blue widget", weight := some 1, value := some 10,
    tariffNumber := some "123456" }

def c2customs : Customs :=
  { items := [("p1", c2item)], ignoreWeightValidation := [("p1", true)] }

def c2form : Form :=
  { origin := { values := c2values, isNormalized := true, normalized := some c2values },
    destination :=
      { values := c2dvalues, isNormalized := true, normalized := some c2dvalues },
    packages := [("b1", c2pkg)],
    customs := c2customs,
    rates := {} }

theorem slookup_sset_self {α : Type} (m : List (String × α)) (k : String) (v : α) :
    slookup (sset m k v) k = some v := by
  induction m with
  | nil => simp [sset, slookup]
  | cons kv rest ih =>
    by_cases h : kv.1 = k
    · simp [sset, h, slookup]
    · simp [sset, h, slookup, ih]

theorem slookup_sset_ne {α : Type} (m : List (String × α)) (k k' : String) (v : α)
    (h : k ≠ k') : slookup (sset m k v) k' = slookup m k' := by
  induction m with
  | nil => simp [sset, slookup, h]
  | cons kv rest ih =>
    by_cases hk : kv.1 = k
    · simp [sset, hk, slookup, h]
    · simp only [sset, hk, if_false, slookup]
      by_cases hk' : kv.1 = k' <;> simp [hk', ih]

theorem mem_jsUniqAux (a : String) (l : List String) :
    ∀ seen, a ∈ jsUniqAux l seen ↔ a ∈ l ∧ a ∉ seen := by
  induction l with
  | nil => intro seen; simp [jsUniqAux]
  | cons x l ih =>
    intro seen
    by_cases hx : x ∈ seen
    · rw [jsUniqAux, if_pos hx, ih seen]
      constructor
      · exact fun hm => ⟨List.mem_cons_of_mem x hm.1, hm.2⟩
      · rintro ⟨hm, hns⟩
        rcases List.mem_cons.mp hm with rfl | hm2
        · exact absurd hx hns
        · exact ⟨hm2, hns⟩
    · rw [jsUniqAux, if_neg hx]
      by_cases ha : a = x
      · subst ha
        simp [hx]
      · rw [List.mem_cons, ih (x :: seen)]
        constructor
        · rintro (rfl | ⟨hm, hns⟩)
          · exact absurd rfl ha
          · exact ⟨List.mem_cons_of_mem x hm,
              fun hs => hns (List.mem_cons_of_mem x hs)⟩
        · rintro ⟨hm, hns⟩
          rcases List.mem_cons.mp hm with rfl | hm2
          · exact absurd rfl ha
          · refine Or.inr ⟨hm2, fun hs => ?_⟩
            rcases List.mem_cons.mp hs with rfl | hs2
            · exact ha rfl
            · exact hns hs2

theorem mem_jsUniq (a : String) (l : List String) : a ∈ jsUniq l ↔ a ∈ l := by
  rw [jsUniq, mem_jsUniqAux]
  simp

theorem slookup_ite {α : Type} (c : Prop) [Decidable c] (m m' : List (String × α))
    (k : String) : slookup (if c then m else m') k =
      if c then slookup m k else slookup m' k := by
  split <;> rfl

theorem slookup_stage {α : Type} (c : Prop) [Decidable c] (e : List (String × α))
    (k k' : String) (v : α) (h : k ≠ k') :
    slookup (if c then sset e k v else e) k' = slookup e k' := by
  split
  · exact slookup_sset_ne e k k' v h
  · rfl

theorem slookup_stage2 {α : Type} (c : Prop) [Decidable c] (e : List (String × α))
    (k1 k2 k' : String) (v1 v2 : α) (h1 : k1 ≠ k') (h2 : k2 ≠ k') :
    slookup (if c then sset (sset e k1 v1) k2 v2 else e) k' = slookup e k' := by
  split
  · rw [slookup_sset_ne _ _ _ _ h2, slookup_sset_ne _ _ _ _ h1]
  · rfl

theorem slookup_filter_none {α : Type} (m : List (String × α)) (q : String → Bool)
    (k : String) (h : q k = false) :
    slookup (m.filter (fun kv => q kv.1)) k = none := by
  induction m with
  | nil => rfl
  | cons kv rest ih =>
    rw [List.filter_cons]
    by_cases hk : kv.1 = k
    · rw [hk, h]
      simpa using ih
    · cases hq : q kv.1
      · simpa using ih
      · simpa [slookup, hk] using ih

/-- The field rules (1-4) never touch the `"phone"` key. -/
theorem addressFieldErrors_phone (ctx : Ctx) (a : Address) :
    slookup (addressFieldErrors ctx a) "phone" = none := by
  simp only [addressFieldErrors, requiredFields, List.foldl]
  rw [slookup_stage _ _ _ _ _ (by decide), slookup_stage _ _ _ _ _ (by decide),
    slookup_stage2 _ _ _ _ _ _ _ (by decide) (by decide),
    slookup_stage _ _ _ _ _ (by decide), slookup_stage _ _ _ _ _ (by decide),
    slookup_stage _ _ _ _ _ (by decide), slookup_stage _ _ _ _ _ (by decide)]
  rfl

/-- The phone rules (5) never touch keys other than `"phone"`. -/
theorem addressPhoneErrors_other (ftv : FieldsToValidate) (phone : String)
    (e : List (String × String)) (k : String) (h : k ≠ "phone") :
    slookup (addressPhoneErrors ftv phone e) k = slookup e k := by
  have hne : "phone" ≠ k := fun hc => h hc.symm
  simp only [addressPhoneErrors]
  split
  · rw [slookup_sset_ne _ _ _ _ hne]
    split
    · split
      · exact slookup_sset_ne _ _ _ _ hne
      · split
        · exact slookup_sset_ne _ _ _ _ hne
        · rfl
    · rfl
  · split
    · split
      · exact slookup_sset_ne _ _ _ _ hne
      · split
        · exact slookup_sset_ne _ _ _ _ hne
        · rfl
    · rfl

/-- C1: counterexample — an address on the bypass path (`isNormalized`,
no `normalized` value, `fieldErrors` present) whose `ignoreValidation`
marks `"state"` truthy still gets the `"state"` field error back from
`getAddressErrors`: the source returns `fieldErrors` verbatim before the
`ignoreValidation` suppression loop runs, so the suppression does not
apply after the bypass path. -/
theorem c1_counterexample :
    (c1addr.isNormalized || c1addr.isUnverifiable) = true ∧
    c1addr.normalized = none ∧
    c1addr.fieldErrors = some [("state", "Invalid state")] ∧
    c1addr.ignoreValidation = some [("state", true)] ∧
    getBool [("state", true)] "state" = true ∧
    slookup (getAddressErrors defaultCtx c1addr {}) "state" = some "Invalid state" := by
  refine ⟨rfl, rfl, rfl, rfl, rfl, ?_⟩
  decide

/-- C1 (amended): when the address record carries `isNormalized ||
isUnverifiable`, no `normalized` value, and a `fieldErrors` map,
`getAddressErrors` returns `fieldErrors` verbatim with NO `ignoreValidation`
suppression; the suppression applies only after the full rule-set path. -/
theorem c1_amended (ctx : Ctx) (a : Address) (ftv : FieldsToValidate) :
    (∀ fe, (a.isNormalized || a.isUnverifiable) = true → a.normalized = none →
      a.fieldErrors = some fe → getAddressErrors ctx a ftv = fe) ∧
    ((a.isNormalized || a.isUnverifiable) = false →
      ∀ ig k, a.ignoreValidation = some ig → getBool ig k = true →
        slookup (getAddressErrors ctx a ftv) k = none) := by
  constructor
  · intro fe hb hn hf
    simp [getAddressErrors, hb, hn, hf]
  · intro hb ig k hig hk
    have h1 : a.isNormalized = false := by
      cases hN : a.isNormalized
      · rfl
      · rw [hN] at hb
        simp at hb
    have h2 : a.isUnverifiable = false := by
      cases hU : a.isUnverifiable
      · rfl
      · rw [hU] at hb
        simp at hb
    simp only [getAddressErrors, h1, h2, Bool.or_false, Bool.false_and,
      Bool.false_eq_true, if_false, hig]
    exact slookup_filter_none _ (fun s => !getBool ig s) k (by simp [hk])

/-- C1 witness: the amended theorem applied to concrete addresses on both
paths. -/
theorem c1_witness :
    getAddressErrors defaultCtx c1addr {} = [("state", "Invalid state")] ∧
    slookup (getAddressErrors defaultCtx c1addr2 {}) "city" = none :=
  ⟨(c1_amended defaultCtx c1addr {}).1 [("state", "Invalid state")] (by decide) rfl rfl,
   (c1_amended defaultCtx c1addr2 {}).2 (by decide) [("city", true)] "city" rfl (by decide)⟩

/-- C4: counterexample — with BOTH `originPhone` and `destinationPhone`
true and an empty phone, the destination-required message overwrites the
origin-required one, so the result does not carry the origin-phone-required
error as the claim (quantified over every call) states. -/
theorem c4_counterexample :
    slookup (getRawAddressErrors defaultCtx c4addr ⟨true, true⟩) "phone" =
      some destinationPhoneRequiredMsg ∧
    destinationPhoneRequiredMsg ≠ originPhoneRequiredMsg := by
  exact ⟨by decide, by decide⟩

/-- C4 (amended): with `originPhone = true`: an empty phone yields the
origin-phone-required error unless `destinationPhone` is also true (then
the destination message overwrites it); a non-empty phone carries the
phone-format error iff stripping non-digits and one leading "1" does not
leave exactly 10 digits.  With `destinationPhone = true` alone, an empty
phone yields the destination-required error and the format check never
runs. -/
theorem c4_amended (ctx : Ctx) (a : Address) (ftv : FieldsToValidate) :
    (ftv.originPhone = true → ftv.destinationPhone = false →
      getStr (getAddressValues a) "phone" = "" →
      slookup (getRawAddressErrors ctx a ftv) "phone" = some originPhoneRequiredMsg) ∧
    (ftv.originPhone = true → getStr (getAddressValues a) "phone" ≠ "" →
      (slookup (getRawAddressErrors ctx a ftv) "phone" = some phoneFormatMsg ↔
        (stripLeadingOne (phoneDigits (getStr (getAddressValues a) "phone"))).length ≠ 10)) ∧
    (ftv.originPhone = true → ftv.destinationPhone = true →
      getStr (getAddressValues a) "phone" = "" →
      slookup (getRawAddressErrors ctx a ftv) "phone" = some destinationPhoneRequiredMsg) ∧
    (ftv.originPhone = false → ftv.destinationPhone = true →
      slookup (getRawAddressErrors ctx a ftv) "phone" =
        if getStr (getAddressValues a) "phone" = "" then some destinationPhoneRequiredMsg
        else none) := by
  have hbase := addressFieldErrors_phone ctx a
  refine ⟨?_, ?_, ?_, ?_⟩
  · intro hop hdp hp
    simp [getRawAddressErrors, addressPhoneErrors, hop, hdp, hp, slookup_sset_self]
  · intro hop hne
    cases hfmt : phoneFormatOk (getStr (getAddressValues a) "phone")
    · have hlenne :
          (stripLeadingOne (phoneDigits (getStr (getAddressValues a) "phone"))).length ≠ 10 := by
        intro hlen
        rw [phoneFormatOk, hlen] at hfmt
        simp at hfmt
      simp [getRawAddressErrors, addressPhoneErrors, hop, hne, hfmt, slookup_sset_self,
        hlenne]
    · have hlen :
          (stripLeadingOne (phoneDigits (getStr (getAddressValues a) "phone"))).length = 10 := by
        rw [phoneFormatOk] at hfmt
        simpa using hfmt
      simp [getRawAddressErrors, addressPhoneErrors, hop, hne, hfmt, hbase, hlen]
  · intro hop hdp hp
    simp [getRawAddressErrors, addressPhoneErrors, hop, hdp, hp, slookup_sset_self]
  · intro hop hdp
    by_cases hp : getStr (getAddressValues a) "phone" = ""
    · simp [getRawAddressErrors, addressPhoneErrors, hop, hdp, hp, slookup_sset_self]
    · simp [getRawAddressErrors, addressPhoneErrors, hop, hdp, hp, hbase]

/-- C4 witness: the amended theorem applied at concrete inputs covering the
empty-phone, bad-format and good-format cases. -/
theorem c4_witness :
    slookup (getRawAddressErrors defaultCtx c4addr ⟨true, false⟩) "phone" =
      some originPhoneRequiredMsg ∧
    (slookup (getRawAddressErrors defaultCtx { values := [("phone", "555")] } ⟨true, false⟩)
      "phone" = some phoneFormatMsg ↔
      (stripLeadingOne (phoneDigits (getStr (getAddressValues
        { values := [("phone", "555")] }) "phone"))).length ≠ 10) ∧
    slookup (getRawAddressErrors defaultCtx { values := [("phone", "x")] } ⟨false, true⟩)
      "phone" = none :=
  ⟨(c4_amended defaultCtx c4addr ⟨true, false⟩).1 rfl rfl (by decide),
   (c4_amended defaultCtx { values := [("phone", "555")] } ⟨true, false⟩).2.1 rfl (by decide),
   by
    have h := (c4_amended defaultCtx { values := [("phone", "x")] } ⟨false, true⟩).2.2.2 rfl rfl
    rw [h]
    decide⟩

/-- C9: for every address with `isNormalized = false` and
`isUnverifiable = false` whose country has states and whose state value is
empty, a truthy `ignoreValidation.state` removes the `"state"` entry from
`getAddressErrors`, even though the state-required rule fires in the raw
rule set. -/
theorem c9_ignored_state (ctx : Ctx) (a : Address) (ftv : FieldsToValidate)
    (h1 : a.isNormalized = false) (h2 : a.isUnverifiable = false)
    (h3 : ctx.hasStates (getStr (getAddressValues a) "country") = true)
    (h4 : getStr (getAddressValues a) "state" = "")
    (ig : List (String × Bool)) (hig : a.ignoreValidation = some ig)
    (hst : getBool ig "state" = true) :
    slookup (getRawAddressErrors ctx a ftv) "state" = some requiredMsg ∧
    slookup (getAddressErrors ctx a ftv) "state" = none := by
  constructor
  · rw [getRawAddressErrors, addressPhoneErrors_other _ _ _ _ (by decide)]
    simp [addressFieldErrors, h3, h4, slookup_sset_self]
  · simp only [getAddressErrors, h1, h2, Bool.or_false, Bool.false_and,
      Bool.false_eq_true, if_false, hig]
    exact slookup_filter_none _ (fun s => !getBool ig s) "state" (by simp [hst])

/-- C9 witness: the theorem applied to a concrete US address with an empty
state and `ignoreValidation.state = true`. -/
theorem c9_witness :
    slookup (getRawAddressErrors c9ctx c9addr {}) "state" = some requiredMsg ∧
    slookup (getAddressErrors c9ctx c9addr {}) "state" = none :=
  c9_ignored_state c9ctx c9addr {} rfl rfl (by decide) (by decide)
    [("state", true)] rfl (by decide)

/-- Bool-level shape of `isCustomsFormRequired`: the if-chain is the
disjunction of the two military checks and the country difference. -/
theorem isCustomsFormRequired_eq (ctx : Ctx) (form : Form) :
    isCustomsFormRequired ctx form =
      ((decide (getStr (getAddressValues form.origin) "country" = "US") &&
          ctx.usMilitaryStates.contains (getStr (getAddressValues form.origin) "state")) ||
        (decide (getStr (getAddressValues form.destination) "country" = "US") &&
          ctx.usMilitaryStates.contains (getStr (getAddressValues form.destination) "state")) ||
        decide (getStr (getAddressValues form.origin) "country" ≠
          getStr (getAddressValues form.destination) "country")) := by
  simp only [isCustomsFormRequired]
  split
  · rename_i h
    rw [h]
    simp
  · rename_i h
    split
    · rename_i h2
      rw [h2]
      simp
    · rename_i h2
      simp only [Bool.not_eq_true] at h h2
      rw [h, h2]
      simp

/-- C6: `isCustomsFormRequired` is true iff some address has country "US"
with a state in the military-state list, or the origin and destination
country codes differ (proved for every content of the military-state
constant); and the concrete same-country non-military GU-to-GU shipment
needs no customs form. -/
theorem c6_customs_required :
    (∀ (ctx : Ctx) (form : Form),
      isCustomsFormRequired ctx form = true ↔
        ((getStr (getAddressValues form.origin) "country" = "US" ∧
            getStr (getAddressValues form.origin) "state" ∈ ctx.usMilitaryStates) ∨
          (getStr (getAddressValues form.destination) "country" = "US" ∧
            getStr (getAddressValues form.destination) "state" ∈ ctx.usMilitaryStates) ∨
          getStr (getAddressValues form.origin) "country" ≠
            getStr (getAddressValues form.destination) "country")) ∧
    isCustomsFormRequired c6guCtx c6guForm = false := by
  constructor
  · intro ctx form
    rw [isCustomsFormRequired_eq]
    simp [List.contains, List.elem_iff, or_assoc]
  · decide

theorem priceLineFor_snd (r : RateObject) (sel : RateSelectionValue)
    (pr : PackageRates) : (priceLineFor r (sigFound pr sel)).2 = chargedRate sel pr r := by
  cases h : sigFound pr sel <;> simp [priceLineFor, chargedRate, h]

theorem breakdown_foldl (available : List (String × PackageRates))
    (l : List (String × RateSelectionValue)) :
    ∀ acc : List PriceLine × ℚ × ℚ,
      l.foldl (breakdownStep available) acc =
        (acc.1 ++ (matchedOf available l).map
            (fun t => (priceLineFor t.2.2 (sigFound t.2.1 t.1)).1),
          acc.2.1 + ((matchedOf available l).map
            (fun t => round2 (t.2.2.retail_rate - t.2.2.rate))).sum,
          acc.2.2 + ((matchedOf available l).map
            (fun t => chargedRate t.1 t.2.1 t.2.2)).sum) := by
  induction l with
  | nil => intro acc; simp [matchedOf]
  | cons kv rest ih =>
    intro acc
    rw [List.foldl_cons]
    rcases hlook : slookup available kv.1 with _ | pr
    · rw [show breakdownStep available acc kv = acc from by simp [breakdownStep, hlook]]
      rw [ih acc]
      simp [matchedOf, List.filterMap_cons, hlook]
    · rcases hfind : pr.rdefault.rates.find? (fun r => kv.2.serviceId = r.service_id)
        with _ | fr
      · rw [show breakdownStep available acc kv = acc from by
          simp [breakdownStep, hlook, hfind]]
        rw [ih acc]
        simp [matchedOf, List.filterMap_cons, hlook, hfind]
      · rw [show breakdownStep available acc kv =
            (acc.1 ++ [(priceLineFor fr (sigFound pr kv.2)).1],
              acc.2.1 + round2 (fr.retail_rate - fr.rate),
              acc.2.2 + (priceLineFor fr (sigFound pr kv.2)).2) from by
          simp [breakdownStep, hlook, hfind]]
        rw [ih _]
        simp only [matchedOf, List.filterMap_cons, hlook, Option.some_bind, hfind,
          Option.map_some', List.map_cons, List.sum_cons, priceLineFor_snd]
        refine Prod.ext ?_ (Prod.ext ?_ ?_)
        · simp [List.append_assoc]
        · simp [add_assoc]
        · simp [add_assoc, priceLineFor_snd]

/-- `getTotalPriceBreakdown` in closed form: `none` iff no selection
matched, else the price lines with the accumulated discount and total. -/
theorem getTotalPriceBreakdown_eq (ratesForm : RatesForm) :
    getTotalPriceBreakdown ratesForm =
      if matchedSelections ratesForm = [] then none
      else some
        { prices := (matchedSelections ratesForm).map
            (fun t => (priceLineFor t.2.2 (sigFound t.2.1 t.1)).1),
          discount := ((matchedSelections ratesForm).map
            (fun t => round2 (t.2.2.retail_rate - t.2.2.rate))).sum,
          total := ((matchedSelections ratesForm).map
            (fun t => chargedRate t.1 t.2.1 t.2.2)).sum } := by
  simp only [getTotalPriceBreakdown, breakdown_foldl ratesForm.available ratesForm.values,
    List.nil_append, zero_add, matchedSelections]
  by_cases hm : matchedOf ratesForm.available ratesForm.values = []
  · simp [hm]
  · rw [if_neg (by simpa using hm), if_neg hm]

/-- C8: over every package whose selected rate matches a default quote,
`getTotalPriceBreakdown` accumulates `discount += round(retail_rate -
rate, 2)` and `total +=` the charged rate (signature-tier when matched,
else base), returning `none` iff no package produced a price line; and the
concrete single-package USPS Priority example yields discount 1.05, total
5.95 and one price line with carrierTitle "USPS". -/
theorem c8_price_breakdown :
    (∀ ratesForm : RatesForm,
      (getTotalPriceBreakdown ratesForm = none ↔ matchedSelections ratesForm = []) ∧
      (∀ b, getTotalPriceBreakdown ratesForm = some b →
        b.discount = ((matchedSelections ratesForm).map
          (fun t => round2 (t.2.2.retail_rate - t.2.2.rate))).sum ∧
        b.total = ((matchedSelections ratesForm).map
          (fun t => chargedRate t.1 t.2.1 t.2.2)).sum)) ∧
    (getTotalPriceBreakdown c8form).map
      (fun b => (b.discount, b.total, b.prices.map (fun p => p.carrierTitle))) =
      some (1.05, 5.95, ["USPS"]) := by
  constructor
  · intro ratesForm
    constructor
    · by_cases hm : matchedSelections ratesForm = [] <;>
        simp [getTotalPriceBreakdown_eq, hm]
    · intro b hb
      rw [getTotalPriceBreakdown_eq] at hb
      by_cases hm : matchedSelections ratesForm = []
      · rw [if_pos hm] at hb
        exact absurd hb (by simp)
      · rw [if_neg hm] at hb
        have hb2 := Option.some.inj hb
        rw [← hb2]
        exact ⟨rfl, rfl⟩
  · with_unfolding_all decide

/-- C8 witness: the accumulation part applied at the concrete USPS form. -/
theorem c8_witness :
    c8b.discount = ((matchedSelections c8form).map
      (fun t => round2 (t.2.2.retail_rate - t.2.2.rate))).sum ∧
    c8b.total = ((matchedSelections c8form).map
      (fun t => chargedRate t.1 t.2.1 t.2.2)).sum :=
  (c8_price_breakdown.1 c8form).2 c8b (by with_unfolding_all decide)

/-! ## C7: rates errors characterization -/

theorem slookup_map {α β : Type} (m : List (String × α)) (f : String → α → β)
    (k : String) :
    slookup (m.map (fun kv => (kv.1, f kv.1 kv.2))) k = (slookup m k).map (f k) := by
  induction m with
  | nil => rfl
  | cons kv rest ih =>
    by_cases h : kv.1 = k
    · subst h
      simp [slookup]
    · simp [slookup, h, ih]

theorem filterMap_blank_filter (l : List RateError) :
    l.filterMap (fun err =>
      let m := if err.userMessage ≠ "" then err.userMessage else err.message
      if m = "" then none else some m) =
    (l.map (fun err => if err.userMessage ≠ "" then err.userMessage else err.message)).filter
      (fun m => m ≠ "") := by
  induction l with
  | nil => rfl
  | cons e rest ih =>
    by_cases h : (if e.userMessage = "" then e.message else e.userMessage) = "" <;>
      simpa [List.filterMap_cons, List.filter_cons, h] using ih

theorem ratePackageErrors_eq_claim (sel : Option RateSelectionValue)
    (pr : PackageRates) : ratePackageErrors sel pr = ratesErrorsClaim sel pr := by
  by_cases he : pr.rdefault.errors = []
  · cases sel <;> simp [ratePackageErrors, ratesErrorsClaim, he, noSelectionErrors]
  · simp only [ratePackageErrors, ratesErrorsClaim]
    rw [if_pos he, if_neg he, filterMap_blank_filter]
    split <;> rename_i hms
    all_goals first
      | rfl
      | rw [if_neg hms]
      | rw [if_pos (of_not_not hms)]

/-- C7: for every rate selection and every quoted package, `getRatesErrors`
assigns exactly the message list the claim describes (and an unquoted
package id is absent from the result). -/
theorem c7_rates_errors (ratesForm : RatesForm) (boxId : String) :
    slookup (getRatesErrors ratesForm) boxId =
      (slookup ratesForm.available boxId).map
        (fun pr => ratesErrorsClaim (slookup ratesForm.values boxId) pr) := by
  have h := slookup_map ratesForm.available
    (fun k pr => ratePackageErrors (slookup ratesForm.values k) pr) boxId
  rw [getRatesErrors, h]
  cases slookup ratesForm.available boxId <;>
    simp [ratePackageErrors_eq_claim]

/-! ## C3/C10: customs aggregation lemmas -/

/-- With every referenced customs item present, the by-product fold
succeeds. -/
theorem vbpFold_isSome (customs : Customs) (l : List PackageItem)
    (hpres : ∀ it ∈ l, (slookup customs.items it.product_id).isSome = true) :
    ∀ m0 : String → Option ℚ, (vbpFold customs l m0).isSome = true := by
  induction l with
  | nil => intro m0; rfl
  | cons it rest ih =>
    intro m0
    have h := hpres it (List.mem_cons_self it rest)
    rcases hci : slookup customs.items it.product_id with _ | ci
    · rw [hci] at h
      exact absurd h (by simp)
    · simp only [vbpFold, vbpStep, hci]
      exact ih (fun it2 h2 => hpres it2 (List.mem_cons_of_mem it h2)) _

/-- A referenced customs item missing from `customs.items` makes the
by-product fold crash. -/
theorem vbpFold_none (customs : Customs) (l : List PackageItem)
    (hmiss : ∃ it ∈ l, slookup customs.items it.product_id = none) :
    ∀ m0 : String → Option ℚ, vbpFold customs l m0 = none := by
  induction l with
  | nil => exact absurd hmiss (by simp)
  | cons it rest ih =>
    intro m0
    rcases hci : slookup customs.items it.product_id with _ | ci
    · simp [vbpFold, vbpStep, hci]
    · simp only [vbpFold, vbpStep, hci]
      rcases hmiss with ⟨it2, hmem, hnone⟩
      rcases List.mem_cons.mp hmem with heq | hmem2
      · rw [heq, hci] at hnone
        exact absurd hnone (by simp)
      · exact ih ⟨it2, hmem2, hnone⟩ _

theorem productValueSum_cons (it : PackageItem) (rest : List PackageItem)
    (customs : Customs) (pid : String) :
    productValueSum (it :: rest) customs pid =
      (if it.product_id = pid then
        it.quantity * ((slookup customs.items it.product_id).bind (fun ci => ci.value)).getD 0
      else 0) + productValueSum rest customs pid := by
  rw [productValueSum, List.filter_cons]
  by_cases h : it.product_id = pid <;> simp [h, productValueSum]

/-- The by-product fold computes exactly the per-product sums (given every
referenced item is present with a numeric value). -/
theorem vbpFold_eq (customs : Customs) (l : List PackageItem)
    (hvals : ∀ it ∈ l, ∃ ci v, slookup customs.items it.product_id = some ci ∧
      ci.value = some v) :
    ∀ (m0 : String → Option ℚ) (m : String → Option ℚ),
      vbpFold customs l m0 = some m →
      ∀ pid a, m0 pid = some a → m pid = some (a + productValueSum l customs pid) := by
  induction l with
  | nil =>
    intro m0 m hm pid a ha
    have : m0 = m := by simpa [vbpFold] using hm
    rw [← this, ha, productValueSum]
    simp
  | cons it rest ih =>
    intro m0 m hm pid a ha
    obtain ⟨ci, v, hci, hv⟩ := hvals it (List.mem_cons_self it rest)
    simp only [vbpFold, vbpStep, hci] at hm
    have hrest := fun it2 h2 => hvals it2 (List.mem_cons_of_mem it h2)
    by_cases hp : pid = it.product_id
    · have hm1 : (fun pid2 =>
          if pid2 = it.product_id then
            optAdd (m0 it.product_id) (ci.value.map (fun v2 => it.quantity * v2))
          else m0 pid2) pid = some (a + it.quantity * v) := by
        rw [hp] at ha ⊢
        simp [ha, hv, optAdd]
      have := ih hrest _ m hm pid (a + it.quantity * v) hm1
      rw [this, productValueSum_cons, if_pos hp.symm, hci]
      simp only [Option.some_bind, hv, Option.getD_some]
      rw [add_assoc]
    · have hm1 : (fun pid2 =>
          if pid2 = it.product_id then
            optAdd (m0 it.product_id) (ci.value.map (fun v2 => it.quantity * v2))
          else m0 pid2) pid = some a := by
        simp [hp, ha]
      have := ih hrest _ m hm pid a hm1
      rw [this, productValueSum_cons, if_neg (fun hc => hp hc.symm), zero_add]

/-- The by-tariff fold computes exactly the per-tariff-code sums of the
by-product values, counting only tariff numbers of exactly 6 characters;
codes never aggregated stay absent. -/
theorem vbtFold_eq (vbp : String → Option ℚ) (picked : List (String × CustomsItem))
    (hsome : ∀ p ∈ picked, ∃ q, vbp p.1 = some q) :
    ∀ (m0 : String → Option ℚ) (code : String),
      picked.foldl (vbtStep vbp) m0 code =
        if code.length = 6 ∧ ∃ p ∈ picked, p.2.tariffNumber = some code then
          some ((m0 code).getD 0 +
            ((picked.filter (fun p => p.2.tariffNumber = some code)).map
              (fun p => (vbp p.1).getD 0)).sum)
        else m0 code := by
  induction picked with
  | nil => intro m0 code; simp
  | cons p rest ih =>
    intro m0 code
    rw [List.foldl_cons]
    have hrest := fun p2 h2 => hsome p2 (List.mem_cons_of_mem p h2)
    rcases htn : p.2.tariffNumber with _ | tn
    · rw [show vbtStep vbp m0 p = m0 from by simp [vbtStep, htn]]
      rw [ih hrest m0 code]
      have hcond : (code.length = 6 ∧ ∃ p2 ∈ p :: rest, p2.2.tariffNumber = some code) ↔
          (code.length = 6 ∧ ∃ p2 ∈ rest, p2.2.tariffNumber = some code) := by
        simp [htn]
      have hfil : (p :: rest).filter (fun p2 => p2.2.tariffNumber = some code) =
          rest.filter (fun p2 => p2.2.tariffNumber = some code) := by
        simp [List.filter_cons, htn]
      rw [hfil, if_congr hcond rfl rfl]
    · by_cases h6 : tn.length = 6
      · obtain ⟨q, hq⟩ := hsome p (List.mem_cons_self p rest)
        have hMdef : vbtStep vbp m0 p =
            (fun c => if c = tn then optAdd (some ((m0 tn).getD 0)) (vbp p.1) else m0 c) := by
          simp [vbtStep, htn, h6]
        rw [hMdef, ih hrest _ code]
        by_cases hc : code = tn
        · rw [hc]
          have hconsc : tn.length = 6 ∧ ∃ p2 ∈ p :: rest, p2.2.tariffNumber = some tn :=
            ⟨h6, ⟨p, List.mem_cons_self p rest, htn⟩⟩
          have hfilc : (p :: rest).filter (fun p2 => p2.2.tariffNumber = some tn) =
              p :: rest.filter (fun p2 => p2.2.tariffNumber = some tn) := by
            simp [List.filter_cons, htn]
          by_cases hrc : ∃ p2 ∈ rest, p2.2.tariffNumber = some tn
          · rw [if_pos (⟨h6, hrc⟩ : tn.length = 6 ∧ ∃ p2 ∈ rest, p2.2.tariffNumber = some tn)]
            rw [if_pos hconsc, hfilc, List.map_cons, List.sum_cons]
            simp [hq, optAdd, add_assoc]
          · rw [if_neg (fun hx => hrc hx.2)]
            rw [if_pos hconsc, hfilc, List.map_cons, List.sum_cons]
            have hfil0 : rest.filter (fun p2 => p2.2.tariffNumber = some tn) = [] :=
              List.filter_eq_nil_iff.mpr
                (fun p2 hp2 => by simpa using fun hcontra => hrc ⟨p2, hp2, hcontra⟩)
            rw [hfil0]
            simp [hq, optAdd]
        · have htc : ¬tn = code := fun h => hc h.symm
          simp only [if_neg hc]
          have hcond : (code.length = 6 ∧ ∃ p2 ∈ p :: rest, p2.2.tariffNumber = some code) ↔
              (code.length = 6 ∧ ∃ p2 ∈ rest, p2.2.tariffNumber = some code) := by
            simp [htn, htc]
          have hfil : (p :: rest).filter (fun p2 => p2.2.tariffNumber = some code) =
              rest.filter (fun p2 => p2.2.tariffNumber = some code) := by
            simp [List.filter_cons, htn, htc]
          rw [hfil, if_congr hcond rfl rfl]
      · rw [show vbtStep vbp m0 p = m0 from by simp [vbtStep, htn, h6]]
        rw [ih hrest m0 code]
        by_cases hc : tn = code
        · rw [if_neg (fun hx => h6 (by rw [hc]; exact hx.1)),
            if_neg (fun hx => h6 (by rw [hc]; exact hx.1))]
        · have hcond : (code.length = 6 ∧ ∃ p2 ∈ p :: rest, p2.2.tariffNumber = some code) ↔
              (code.length = 6 ∧ ∃ p2 ∈ rest, p2.2.tariffNumber = some code) := by
            simp [htn, hc]
          have hfil : (p :: rest).filter (fun p2 => p2.2.tariffNumber = some code) =
              rest.filter (fun p2 => p2.2.tariffNumber = some code) := by
            simp [List.filter_cons, htn, hc]
          rw [hfil, if_congr hcond rfl rfl]

theorem mem_addClass (l : List String) (tn c : String) :
    c ∈ addClass l tn ↔ c ∈ l ∨ c = tn := by
  by_cases h : tn ∈ l
  · simp only [addClass, if_pos h]
    constructor
    · exact fun hc => Or.inl hc
    · rintro (hc | rfl)
      · exact hc
      · exact h
  · simp [addClass, if_neg h]

theorem addClass_self_mem (l : List String) (tn : String) : tn ∈ addClass l tn := by
  rw [mem_addClass]
  exact Or.inr rfl

/-- With every referenced customs item present, the per-package tariff-set
computation succeeds. -/
theorem classesAbove_isSome (customs : Customs) (vbt : String → Option ℚ)
    (items : List PackageItem)
    (hpres : ∀ it ∈ items, (slookup customs.items it.product_id).isSome = true) :
    ∀ acc, (classesAbove2500 customs vbt items acc).isSome = true := by
  induction items with
  | nil => intro acc; rfl
  | cons it rest ih =>
    intro acc
    rcases hci : slookup customs.items it.product_id with _ | ci
    · have h := hpres it (List.mem_cons_self it rest)
      rw [hci] at h
      exact absurd h (by simp)
    · simp only [classesAbove2500, hci]
      exact ih (fun it2 h2 => hpres it2 (List.mem_cons_of_mem it h2)) _

theorem classesAbove_none (customs : Customs) (vbt : String → Option ℚ)
    (items : List PackageItem)
    (hmiss : ∃ it ∈ items, slookup customs.items it.product_id = none) :
    ∀ acc, classesAbove2500 customs vbt items acc = none := by
  induction items with
  | nil => exact absurd hmiss (by simp)
  | cons it rest ih =>
    intro acc
    rcases hci : slookup customs.items it.product_id with _ | ci
    · simp [classesAbove2500, hci]
    · simp only [classesAbove2500, hci]
      rcases hmiss with ⟨it2, hmem, hnone⟩
      rcases List.mem_cons.mp hmem with heq | hmem2
      · rw [heq, hci] at hnone
        exact absurd hnone (by simp)
      · exact ih ⟨it2, hmem2, hnone⟩ _

/-- Every tariff code in the computed set is an exceeding code of some item
of the package (soundness of the set). -/
theorem classesAbove_sound (customs : Customs) (vbt : String → Option ℚ)
    (items : List PackageItem) :
    ∀ acc cs, classesAbove2500 customs vbt items acc = some cs →
      ∀ c ∈ cs, c ∈ acc ∨ ∃ it ∈ items, ∃ ci,
        slookup customs.items it.product_id = some ci ∧ ci.tariffNumber = some c ∧
        ∃ q, vbt c = some q ∧ 2500 < q := by
  induction items with
  | nil =>
    intro acc cs hcs c hc
    have : acc = cs := by simpa [classesAbove2500] using hcs
    exact Or.inl (this ▸ hc)
  | cons it rest ih =>
    intro acc cs hcs c hc
    rcases hci : slookup customs.items it.product_id with _ | ci
    · rw [show classesAbove2500 customs vbt (it :: rest) acc = none from by
        simp [classesAbove2500, hci]] at hcs
      exact absurd hcs (by simp)
    · simp only [classesAbove2500, hci] at hcs
      rcases htn : ci.tariffNumber with _ | tn
      · simp only [htn] at hcs
        rcases ih _ _ hcs c hc with hin | ⟨it2, hm2, hrest⟩
        · exact Or.inl hin
        · exact Or.inr ⟨it2, List.mem_cons_of_mem it hm2, hrest⟩
      · rcases hvq : vbt tn with _ | q
        · simp only [htn, hvq] at hcs
          rcases ih _ _ hcs c hc with hin | ⟨it2, hm2, hrest⟩
          · exact Or.inl hin
          · exact Or.inr ⟨it2, List.mem_cons_of_mem it hm2, hrest⟩
        · by_cases hlt : 2500 < q
          · simp only [htn, hvq] at hcs
            rw [if_pos hlt] at hcs
            rcases ih _ _ hcs c hc with hin | ⟨it2, hm2, hrest⟩
            · rcases (mem_addClass acc tn c).mp hin with hacc | rfl
              · exact Or.inl hacc
              · exact Or.inr ⟨it, List.mem_cons_self it rest, ci, hci, htn, q, hvq, hlt⟩
            · exact Or.inr ⟨it2, List.mem_cons_of_mem it hm2, hrest⟩
          · simp only [htn, hvq] at hcs
            rw [if_neg hlt] at hcs
            rcases ih _ _ hcs c hc with hin | ⟨it2, hm2, hrest⟩
            · exact Or.inl hin
            · exact Or.inr ⟨it2, List.mem_cons_of_mem it hm2, hrest⟩

/-- The accumulator only grows (membership monotonicity). -/
theorem classesAbove_mono (customs : Customs) (vbt : String → Option ℚ)
    (items : List PackageItem) :
    ∀ acc cs, classesAbove2500 customs vbt items acc = some cs →
      ∀ c ∈ acc, c ∈ cs := by
  induction items with
  | nil =>
    intro acc cs hcs c hc
    have : acc = cs := by simpa [classesAbove2500] using hcs
    exact this ▸ hc
  | cons it rest ih =>
    intro acc cs hcs c hc
    rcases hci : slookup customs.items it.product_id with _ | ci
    · rw [show classesAbove2500 customs vbt (it :: rest) acc = none from by
        simp [classesAbove2500, hci]] at hcs
      exact absurd hcs (by simp)
    · simp only [classesAbove2500, hci] at hcs
      rcases htn : ci.tariffNumber with _ | tn
      · simp only [htn] at hcs
        exact ih _ _ hcs c hc
      · rcases hvq : vbt tn with _ | q
        · simp only [htn, hvq] at hcs
          exact ih _ _ hcs c hc
        · by_cases hlt : 2500 < q
          · simp only [htn, hvq] at hcs
            rw [if_pos hlt] at hcs
            exact ih _ _ hcs c ((mem_addClass acc tn c).mpr (Or.inl hc))
          · simp only [htn, hvq] at hcs
            rw [if_neg hlt] at hcs
            exact ih _ _ hcs c hc

/-- If some item of the package carries an exceeding tariff code, the
computed set is non-empty (completeness of the set). -/
theorem classesAbove_nonempty (customs : Customs) (vbt : String → Option ℚ)
    (items : List PackageItem) :
    ∀ acc cs, classesAbove2500 customs vbt items acc = some cs →
      (∃ it ∈ items, ∃ ci, slookup customs.items it.product_id = some ci ∧
        ∃ tn, ci.tariffNumber = some tn ∧ ∃ q, vbt tn = some q ∧ 2500 < q) →
      ∃ c, c ∈ cs := by
  induction items with
  | nil =>
    intro acc cs hcs hex
    exact absurd hex (by simp)
  | cons it rest ih =>
    intro acc cs hcs hex
    rcases hci : slookup customs.items it.product_id with _ | ci
    · rw [show classesAbove2500 customs vbt (it :: rest) acc = none from by
        simp [classesAbove2500, hci]] at hcs
      exact absurd hcs (by simp)
    · simp only [classesAbove2500, hci] at hcs
      rcases hex with ⟨it2, hmem, ci2, hci2, tn2, htn2, q2, hq2, hlt2⟩
      rcases List.mem_cons.mp hmem with heq | hmem2
      · subst heq
        rw [hci] at hci2
        have hcieq := Option.some.inj hci2
        subst hcieq
        simp only [htn2, hq2] at hcs
        rw [if_pos hlt2] at hcs
        exact ⟨tn2, classesAbove_mono customs vbt rest _ _ hcs tn2
          (addClass_self_mem acc tn2)⟩
      · rcases htn : ci.tariffNumber with _ | tn
        · simp only [htn] at hcs
          exact ih _ _ hcs ⟨it2, hmem2, ci2, hci2, tn2, htn2, q2, hq2, hlt2⟩
        · rcases hvq : vbt tn with _ | q
          · simp only [htn, hvq] at hcs
            exact ih _ _ hcs ⟨it2, hmem2, ci2, hci2, tn2, htn2, q2, hq2, hlt2⟩
          · by_cases hlt : 2500 < q
            · simp only [htn, hvq] at hcs
              rw [if_pos hlt] at hcs
              exact ih _ _ hcs ⟨it2, hmem2, ci2, hci2, tn2, htn2, q2, hq2, hlt2⟩
            · simp only [htn, hvq] at hcs
              rw [if_neg hlt] at hcs
              exact ih _ _ hcs ⟨it2, hmem2, ci2, hci2, tn2, htn2, q2, hq2, hlt2⟩

theorem mem_allPackageItems (packages : List (String × Package))
    (kv : String × Package) (hkv : kv ∈ packages) (it : PackageItem)
    (hit : it ∈ kv.2.items) : it ∈ allPackageItems packages := by
  rw [allPackageItems]
  exact List.mem_flatten.mpr ⟨kv.2.items, List.mem_map_of_mem _ hkv, hit⟩

theorem pckgCustomsErrors_isSome (ctx : Ctx) (customs : Customs)
    (vbt : String → Option ℚ) (dc dn : String) (pckg : Package)
    (hpres : ∀ it ∈ pckg.items, (slookup customs.items it.product_id).isSome = true) :
    (pckgCustomsErrors ctx customs vbt dc dn pckg).isSome = true := by
  have h := classesAbove_isSome customs vbt pckg.items hpres []
  rcases hcl : classesAbove2500 customs vbt pckg.items [] with _ | cs
  · rw [hcl] at h
    exact absurd h (by simp)
  · simp [pckgCustomsErrors, hcl]

theorem pckgCustomsErrors_itn (ctx : Ctx) (customs : Customs)
    (vbt : String → Option ℚ) (dc dn : String) (pckg : Package) (c : String)
    (cs : List String) (hitn : pckg.itn = "") (hdc : ¬dc = "CA")
    (hcl : classesAbove2500 customs vbt pckg.items [] = some (c :: cs)) :
    ∃ em, pckgCustomsErrors ctx customs vbt dc dn pckg = some em ∧
      slookup em "itn" = some (itnThresholdMsg c) := by
  simp only [pckgCustomsErrors, hcl]
  refine ⟨_, rfl, ?_⟩
  rw [if_neg (by simp [hitn]), if_pos hdc]
  exact slookup_sset_self _ _ _

theorem pkgErrorsList_isSome (ctx : Ctx) (customs : Customs)
    (vbt : String → Option ℚ) (dc dn : String) :
    ∀ packages : List (String × Package),
      (∀ kv ∈ packages, ∀ it ∈ kv.2.items,
        (slookup customs.items it.product_id).isSome = true) →
      (pkgErrorsList ctx customs vbt dc dn packages).isSome = true := by
  intro packages
  induction packages with
  | nil => intro _; rfl
  | cons kv rest ih =>
    intro h
    obtain ⟨kId, pckg⟩ := kv
    have h1 := pckgCustomsErrors_isSome ctx customs vbt dc dn pckg
      (h _ (List.mem_cons_self _ rest))
    rcases he : pckgCustomsErrors ctx customs vbt dc dn pckg with _ | e
    · rw [he] at h1
      exact absurd h1 (by simp)
    · simp only [pkgErrorsList, he]
      have h2 := ih (fun kv2 hm => h kv2 (List.mem_cons_of_mem _ hm))
      rcases hrest : pkgErrorsList ctx customs vbt dc dn rest with _ | l
      · rw [hrest] at h2
        exact absurd h2 (by simp)
      · simp [hrest]

theorem pkgErrorsList_lookup (ctx : Ctx) (customs : Customs)
    (vbt : String → Option ℚ) (dc dn : String) :
    ∀ (packages : List (String × Package)) res,
      pkgErrorsList ctx customs vbt dc dn packages = some res →
      ∀ pkgId, slookup res pkgId =
        (slookup packages pkgId).bind
          (fun pckg => pckgCustomsErrors ctx customs vbt dc dn pckg) := by
  intro packages
  induction packages with
  | nil =>
    intro res hres pkgId
    have hr : ([] : List (String × List (String × String))) = res := by
      simpa [pkgErrorsList] using hres
    rw [← hr]
    rfl
  | cons kv rest ih =>
    intro res hres pkgId
    obtain ⟨kId, pckg⟩ := kv
    rcases he : pckgCustomsErrors ctx customs vbt dc dn pckg with _ | e
    · simp only [pkgErrorsList, he] at hres
      exact absurd hres (by simp)
    · simp only [pkgErrorsList, he] at hres
      rcases hrest : pkgErrorsList ctx customs vbt dc dn rest with _ | l
      · rw [hrest] at hres
        exact absurd hres (by simp)
      · rw [hrest] at hres
        simp only [Option.map_some'] at hres
        have hre := Option.some.inj hres
        rw [← hre]
        by_cases hk : kId = pkgId
        · simp [slookup, hk, he]
        · simp only [slookup, hk, if_false]
          rw [ih _ hrest pkgId]

/-- C10: `getCustomsErrors` is total exactly under the precondition that
every product id referenced by any package's items has a `customs.items`
entry: under the precondition the missing-entry (crash) branch is
unreachable, while any input violating it crashes (the embedding returns
`none`); in particular the concrete violating input evaluates to `none`. -/
theorem c10_totality :
    (∀ (ctx : Ctx) (packages : List (String × Package)) (customs : Customs)
        (dc dn : String),
      (∀ it ∈ allPackageItems packages,
        (slookup customs.items it.product_id).isSome = true) →
      (getCustomsErrors ctx packages customs dc dn).isSome = true) ∧
    (∀ (ctx : Ctx) (packages : List (String × Package)) (customs : Customs)
        (dc dn : String),
      (∃ it ∈ allPackageItems packages, slookup customs.items it.product_id = none) →
      getCustomsErrors ctx packages customs dc dn = none) ∧
    getCustomsErrors defaultCtx c10packages c10customs "FR" "France" = none := by
  refine ⟨?_, ?_, ?_⟩
  · intro ctx packages customs dc dn hpres
    have h1 := vbpFold_isSome customs (allPackageItems packages) hpres (initVBP packages)
    rcases hvbp : computeValuesByProductId packages customs with _ | vbp
    · rw [computeValuesByProductId] at hvbp
      rw [hvbp] at h1
      exact absurd h1 (by simp)
    · have h2 := pkgErrorsList_isSome ctx customs
        (computeValuesByTariffNumber (usedProductIds packages) customs vbp) dc dn packages
        (fun kv hkv it hit => hpres it (mem_allPackageItems packages kv hkv it hit))
      rcases hpk : pkgErrorsList ctx customs
          (computeValuesByTariffNumber (usedProductIds packages) customs vbp) dc dn
          packages with _ | pkgErrs
      · rw [hpk] at h2
        exact absurd h2 (by simp)
      · simp [getCustomsErrors, hvbp, hpk]
  · intro ctx packages customs dc dn hmiss
    have h1 := vbpFold_none customs (allPackageItems packages) hmiss (initVBP packages)
    simp [getCustomsErrors, computeValuesByProductId, h1]
  · decide

theorem slookup_mem {α : Type} (m : List (String × α)) (k : String) (v : α)
    (h : slookup m k = some v) : (k, v) ∈ m := by
  induction m with
  | nil => exact absurd h (by simp [slookup])
  | cons kv rest ih =>
    by_cases hk : kv.1 = k
    · rw [slookup, if_pos hk] at h
      have hv := Option.some.inj h
      have hkv : (k, v) = kv := Prod.ext hk.symm hv.symm
      rw [hkv]
      exact List.mem_cons_self _ _
    · rw [slookup, if_neg hk] at h
      exact List.mem_cons_of_mem _ (ih h)

theorem pkgErrorsList_all_some (ctx : Ctx) (customs : Customs)
    (vbt : String → Option ℚ) (dc dn : String) :
    ∀ (packages : List (String × Package)) res,
      pkgErrorsList ctx customs vbt dc dn packages = some res →
      ∀ kv ∈ packages, (pckgCustomsErrors ctx customs vbt dc dn kv.2).isSome = true := by
  intro packages
  induction packages with
  | nil =>
    intro res _ kv hkv
    exact absurd hkv (by simp)
  | cons kv0 rest ih =>
    intro res hres kv hkv
    obtain ⟨kId, pckg⟩ := kv0
    rcases he : pckgCustomsErrors ctx customs vbt dc dn pckg with _ | e
    · simp only [pkgErrorsList, he] at hres
      exact absurd hres (by simp)
    · simp only [pkgErrorsList, he] at hres
      rcases hrest : pkgErrorsList ctx customs vbt dc dn rest with _ | l
      · rw [hrest] at hres
        exact absurd hres (by simp)
      · rcases List.mem_cons.mp hkv with heq | hm
        · rw [heq]
          simp [he]
        · exact ih _ hrest kv hm

/-- C10 witness: the totality half applied to a concrete input where every
referenced product id has a customs entry. -/
theorem c10_witness :
    (getCustomsErrors defaultCtx c3packages c3customs "FR" "France").isSome = true :=
  c10_totality.1 defaultCtx c3packages c3customs "FR" "France" (by decide)

/-- C3: `getCustomsErrors` aggregates declared value in two passes — per
product id (sum over all packages' items of quantity times the product's
customs value), then per 6-character tariff code — and every package with
no itn and a non-"CA" destination whose items carry a tariff code with
aggregate strictly above 2500 receives an ITN-required error naming one
such code; the concrete two-package "123456" example with values 1500 and
1200 puts the error (naming "123456") on both packages. -/
theorem c3_customs_aggregation :
    (∀ (packages : List (String × Package)) (customs : Customs)
        (vbp : String → Option ℚ),
      (∀ it ∈ allPackageItems packages, ∃ ci v,
        slookup customs.items it.product_id = some ci ∧ ci.value = some v) →
      computeValuesByProductId packages customs = some vbp →
      (∀ pid ∈ usedProductIds packages,
        vbp pid = some (productValueSum (allPackageItems packages) customs pid)) ∧
      (∀ code : String,
        computeValuesByTariffNumber (usedProductIds packages) customs vbp code =
          if code.length = 6 ∧
              ∃ p ∈ pickedItems (usedProductIds packages) customs,
                p.2.tariffNumber = some code then
            some ((((pickedItems (usedProductIds packages) customs).filter
                (fun p => p.2.tariffNumber = some code)).map
                (fun p => (vbp p.1).getD 0)).sum)
          else none)) ∧
    (∀ (ctx : Ctx) (packages : List (String × Package)) (customs : Customs)
        (dc dn : String) (vbp : String → Option ℚ) (ce : CustomsErrors)
        (pkgId : String) (pckg : Package),
      computeValuesByProductId packages customs = some vbp →
      getCustomsErrors ctx packages customs dc dn = some ce →
      slookup packages pkgId = some pckg →
      pckg.itn = "" → ¬dc = "CA" →
      (∃ it ∈ pckg.items, ∃ ci, slookup customs.items it.product_id = some ci ∧
        ∃ tn, ci.tariffNumber = some tn ∧
          ∃ q, computeValuesByTariffNumber (usedProductIds packages) customs vbp tn =
            some q ∧ 2500 < q) →
      ∃ em c, slookup ce.packages pkgId = some em ∧
        slookup em "itn" = some (itnThresholdMsg c) ∧
        ∃ it ∈ pckg.items, ∃ ci, slookup customs.items it.product_id = some ci ∧
          ci.tariffNumber = some c ∧
          ∃ q, computeValuesByTariffNumber (usedProductIds packages) customs vbp c =
            some q ∧ 2500 < q) ∧
    (getCustomsErrors defaultCtx c3packages c3customs "FR" "France").map
      (fun ce => ce.packages.map (fun kv => (kv.1, slookup kv.2 "itn"))) =
      some [("1", some (itnThresholdMsg "123456")),
        ("2", some (itnThresholdMsg "123456"))] := by
  refine ⟨?_, ?_, ?_⟩
  · intro packages customs vbp hvals hvbp
    have hprod : ∀ pid ∈ usedProductIds packages,
        vbp pid = some (productValueSum (allPackageItems packages) customs pid) := by
      intro pid hpid
      have h0 : initVBP packages pid = some 0 := by simp [initVBP, hpid]
      have h := vbpFold_eq customs (allPackageItems packages) hvals (initVBP packages)
        vbp hvbp pid 0 h0
      rw [h, zero_add]
    refine ⟨hprod, ?_⟩
    intro code
    have hpidmem : ∀ p ∈ pickedItems (usedProductIds packages) customs,
        p.1 ∈ usedProductIds packages := by
      intro p hp
      rw [pickedItems] at hp
      obtain ⟨a, ha, hf⟩ := List.mem_filterMap.mp hp
      rcases hla : slookup customs.items a with _ | ci
      · rw [hla] at hf
        exact absurd hf (by simp)
      · rw [hla] at hf
        have : (a, ci) = p := by simpa using hf
        rw [← this]
        exact ha
    have hsome : ∀ p ∈ pickedItems (usedProductIds packages) customs,
        ∃ q, vbp p.1 = some q := fun p hp =>
      ⟨_, hprod p.1 (hpidmem p hp)⟩
    have h := vbtFold_eq vbp (pickedItems (usedProductIds packages) customs) hsome
      (fun _ => none) code
    rw [computeValuesByTariffNumber, h]
    by_cases hcond : code.length = 6 ∧
        ∃ p ∈ pickedItems (usedProductIds packages) customs,
          p.2.tariffNumber = some code
    · rw [if_pos hcond, if_pos hcond]
      simp
    · rw [if_neg hcond, if_neg hcond]
  · intro ctx packages customs dc dn vbp ce pkgId pckg hvbp hce hpkg hitn hdc hex
    simp only [getCustomsErrors, hvbp] at hce
    rcases hpk : pkgErrorsList ctx customs
        (computeValuesByTariffNumber (usedProductIds packages) customs vbp) dc dn
        packages with _ | pkgErrs
    · rw [hpk] at hce
      exact absurd hce (by simp)
    · rw [hpk] at hce
      have hceq := Option.some.inj hce
      have hmem := slookup_mem packages pkgId pckg hpkg
      have hsome := pkgErrorsList_all_some ctx customs
        (computeValuesByTariffNumber (usedProductIds packages) customs vbp) dc dn
        packages pkgErrs hpk (pkgId, pckg) hmem
      rcases hcl : classesAbove2500 customs
          (computeValuesByTariffNumber (usedProductIds packages) customs vbp)
          pckg.items [] with _ | cs
      · rw [show pckgCustomsErrors ctx customs
            (computeValuesByTariffNumber (usedProductIds packages) customs vbp) dc dn
            pckg = none from by simp [pckgCustomsErrors, hcl]] at hsome
        exact absurd hsome (by simp)
      · have hne := classesAbove_nonempty customs
          (computeValuesByTariffNumber (usedProductIds packages) customs vbp)
          pckg.items [] cs hcl hex
        rcases cs with _ | ⟨c, cs2⟩
        · exact absurd hne (by simp)
        · obtain ⟨em, hem, hitnlook⟩ := pckgCustomsErrors_itn ctx customs
            (computeValuesByTariffNumber (usedProductIds packages) customs vbp) dc dn
            pckg c cs2 hitn hdc hcl
          have hprop := classesAbove_sound customs
            (computeValuesByTariffNumber (usedProductIds packages) customs vbp)
            pckg.items [] (c :: cs2) hcl c (List.mem_cons_self c cs2)
          rcases hprop with habs | hprop
          · exact absurd habs (by simp)
          · refine ⟨em, c, ?_, hitnlook, hprop⟩
            have hlk := pkgErrorsList_lookup ctx customs
              (computeValuesByTariffNumber (usedProductIds packages) customs vbp) dc dn
              packages pkgErrs hpk pkgId
            rw [← hceq]
            rw [hlk, hpkg]
            simpa using hem
  · with_unfolding_all decide

/-- C3 witness: the ITN part applied to the concrete two-package "123456"
input (values 1500 and 1200, destination "FR"). -/
theorem c3_witness :
    ∃ em c,
      slookup ((getCustomsErrors defaultCtx c3packages c3customs "FR" "France").getD
        { packages := [], items := [] }).packages "1" = some em ∧
      slookup em "itn" = some (itnThresholdMsg c) ∧
      ∃ it ∈ ({ items := [{ product_id := "pA" }] } : Package).items, ∃ ci,
        slookup c3customs.items it.product_id = some ci ∧ ci.tariffNumber = some c ∧
        ∃ q, computeValuesByTariffNumber (usedProductIds c3packages) c3customs
          ((computeValuesByProductId c3packages c3customs).getD (fun _ => none)) c =
            some q ∧ 2500 < q := by
  have hvs : (computeValuesByProductId c3packages c3customs).isSome = true := by
    with_unfolding_all decide
  have hcs : (getCustomsErrors defaultCtx c3packages c3customs "FR" "France").isSome
      = true := by
    with_unfolding_all decide
  have hvt : (computeValuesByTariffNumber (usedProductIds c3packages) c3customs
      ((computeValuesByProductId c3packages c3customs).getD (fun _ => none))
      "123456").isSome = true := by
    with_unfolding_all decide
  have hvbp : computeValuesByProductId c3packages c3customs =
      some ((computeValuesByProductId c3packages c3customs).getD (fun _ => none)) := by
    rcases h : computeValuesByProductId c3packages c3customs with _ | v
    · rw [h] at hvs
      exact absurd hvs (by simp)
    · rfl
  have hce : getCustomsErrors defaultCtx c3packages c3customs "FR" "France" =
      some ((getCustomsErrors defaultCtx c3packages c3customs "FR" "France").getD
        { packages := [], items := [] }) := by
    rcases h : getCustomsErrors defaultCtx c3packages c3customs "FR" "France" with _ | v
    · rw [h] at hcs
      exact absurd hcs (by simp)
    · rfl
  have hq : computeValuesByTariffNumber (usedProductIds c3packages) c3customs
      ((computeValuesByProductId c3packages c3customs).getD (fun _ => none)) "123456" =
      some ((computeValuesByTariffNumber (usedProductIds c3packages) c3customs
        ((computeValuesByProductId c3packages c3customs).getD (fun _ => none))
        "123456").getD 0) := by
    rcases h : computeValuesByTariffNumber (usedProductIds c3packages) c3customs
        ((computeValuesByProductId c3packages c3customs).getD (fun _ => none))
        "123456" with _ | v
    · rw [h] at hvt
      exact absurd hvt (by simp)
    · rfl
  exact c3_customs_aggregation.2.1 defaultCtx c3packages c3customs "FR" "France" _ _
    "1" { items := [{ product_id := "pA" }] } hvbp hce rfl rfl (by decide)
    ⟨{ product_id := "pA" }, List.mem_cons_self _ _,
      { description := "Gadgets", weight := some 1, value := some 1500,
        tariffNumber := some "123456" }, rfl,
      "123456", rfl,
      (computeValuesByTariffNumber (usedProductIds c3packages) c3customs
        ((computeValuesByProductId c3packages c3customs).getD (fun _ => none))
        "123456").getD 0,
      hq, by with_unfolding_all decide⟩

/-- C5: `getFirstErroneousStep` returns exactly the first failing step of
the fixed order origin, destination, packages, customs, rates (or null
when none fails); consequently a form with both an origin error and a
packages error reports "origin", never "packages". -/
theorem c5_first_erroneous_step (ctx : Ctx) (ps : String) (form : Form)
    (errors : FormErrors) (submitted : Bool)
    (h1 : getFormErrors ctx ps form = some errors)
    (h2 : isCustomsFormStepSubmitted form = some submitted) :
    getFirstErroneousStep ctx ps form =
      some (firstFailingStep ctx form errors submitted) ∧
    (errorMapHasNonEmptyLeaves errors.origin = true →
      errorMapsHaveNonEmptyLeaves errors.packages = true →
      getFirstErroneousStep ctx ps form = some (some "origin")) := by
  constructor
  · simp only [getFirstErroneousStep, h1]
    cases hO : originStepFails form errors
    · cases hD : destinationStepFails form errors
      · cases hP : packagesStepFails errors
        · cases hR : isCustomsFormRequired ctx form
          · cases hRa : ratesStepFails errors <;>
              simp [firstFailingStep, stepChecks, List.find?, hO, hD, hP, hR, hRa,
                customsStepFails]
          · cases hC : customsErrorsHaveNonEmptyLeaves errors.customs
            · rw [h2]
              cases hS : submitted
              · simp [firstFailingStep, stepChecks, List.find?, hO, hD, hP, hR, hC, hS,
                  customsStepFails]
              · cases hRa : ratesStepFails errors <;>
                  simp [firstFailingStep, stepChecks, List.find?, hO, hD, hP, hR, hC,
                    hS, hRa, customsStepFails]
            · simp [firstFailingStep, stepChecks, List.find?, hO, hD, hP, hR, hC,
                customsStepFails]
        · simp [firstFailingStep, stepChecks, List.find?, hO, hD, hP]
      · simp [firstFailingStep, stepChecks, List.find?, hO, hD]
    · simp [firstFailingStep, stepChecks, List.find?, hO]
  · intro hOrigErr _
    have hO : originStepFails form errors = true := by
      simp [originStepFails, hOrigErr]
    simp [getFirstErroneousStep, h1, hO]

/-- C5 witness: a concrete form with both an origin error and a packages
error reports "origin". -/
theorem c5_witness :
    errorMapHasNonEmptyLeaves ((getFormErrors defaultCtx "a4" c5form).getD
      emptyFormErrors).origin = true ∧
    errorMapsHaveNonEmptyLeaves ((getFormErrors defaultCtx "a4" c5form).getD
      emptyFormErrors).packages = true ∧
    getFirstErroneousStep defaultCtx "a4" c5form = some (some "origin") := by
  have hfs : (getFormErrors defaultCtx "a4" c5form).isSome = true := by decide
  have h1 : getFormErrors defaultCtx "a4" c5form =
      some ((getFormErrors defaultCtx "a4" c5form).getD emptyFormErrors) := by
    rcases h : getFormErrors defaultCtx "a4" c5form with _ | v
    · rw [h] at hfs
      exact absurd hfs (by simp)
    · rfl
  refine ⟨by decide, by decide, ?_⟩
  exact (c5_first_erroneous_step defaultCtx "a4" c5form
    ((getFormErrors defaultCtx "a4" c5form).getD emptyFormErrors) true h1 (by decide)).2
    (by decide) (by decide)

theorem reviewed_not_flag (o : Option String) (a b : Bool) :
    (!(o.isNone || a || b)) = (o.isSome && !a && !b) := by
  cases o <;> cases a <;> cases b <;> rfl

/-- The submitted flag is true iff every used product has a tariff number
present AND neither ignore flag set (the source's `isNil(tn) || igW || igV`
under `!some`). -/
theorem submittedFlags_spec (customs : Customs) :
    ∀ (l : List String) (flags : List Bool),
      submittedFlags customs l = some flags →
      ((!flags.any id) = true ↔ ∀ pid ∈ l,
        ((slookup customs.items pid).map (fun it =>
          it.tariffNumber.isSome && !getBool customs.ignoreWeightValidation pid &&
          !getBool customs.ignoreValueValidation pid)).getD false = true) := by
  intro l
  induction l with
  | nil =>
    intro flags hf
    have h0 : ([] : List Bool) = flags := by simpa [submittedFlags] using hf
    rw [← h0]
    simp
  | cons pid rest ih =>
    intro flags hf
    rcases hci : slookup customs.items pid with _ | it
    · simp only [submittedFlags, hci] at hf
      exact absurd hf (by simp)
    · simp only [submittedFlags, hci] at hf
      rcases hrest : submittedFlags customs rest with _ | fl
      · rw [hrest] at hf
        exact absurd hf (by simp)
      · rw [hrest] at hf
        simp only [Option.map_some'] at hf
        have hfe := Option.some.inj hf
        rw [← hfe]
        rw [List.any_cons, Bool.not_or]
        simp only [id_eq]
        rw [reviewed_not_flag, Bool.and_eq_true]
        have hih := ih fl hrest
        constructor
        · rintro ⟨hf1, hf2⟩ pid2 hm2
          rcases List.mem_cons.mp hm2 with rfl | hm3
          · simp only [hci, Option.map_some', Option.getD_some]
            exact hf1
          · exact hih.mp hf2 pid2 hm3
        · intro hall
          refine ⟨?_, hih.mpr (fun pid2 hm2 => hall pid2 (List.mem_cons_of_mem _ hm2))⟩
          have hp := hall pid (List.mem_cons_self _ _)
          simpa [hci] using hp

/-- C2 (amended): the customs step is gated on `isCustomsFormRequired`,
and it fails when the customs error map has non-empty leaves or when some
used product has a nil tariff number OR a set ignore-weight OR a set
ignore-value flag — i.e. a product counts as reviewed only when its tariff
number is present AND it is NOT marked as ignoring weight or value
validation. -/
theorem c2_amended (ctx : Ctx) (ps : String) (form : Form) (errors : FormErrors)
    (submitted : Bool)
    (h1 : getFormErrors ctx ps form = some errors)
    (h2 : isCustomsFormStepSubmitted form = some submitted) :
    (isCustomsFormRequired ctx form = false →
      getFirstErroneousStep ctx ps form ≠ some (some "customs")) ∧
    (submitted = true ↔ ∀ pid ∈ usedProductIds form.packages,
      ((slookup form.customs.items pid).map (fun it =>
        it.tariffNumber.isSome && !getBool form.customs.ignoreWeightValidation pid &&
        !getBool form.customs.ignoreValueValidation pid)).getD false = true) ∧
    (originStepFails form errors = false → destinationStepFails form errors = false →
      packagesStepFails errors = false → isCustomsFormRequired ctx form = true →
      (getFirstErroneousStep ctx ps form = some (some "customs") ↔
        (customsErrorsHaveNonEmptyLeaves errors.customs || !submitted) = true)) := by
  refine ⟨?_, ?_, ?_⟩
  · intro hR
    simp only [getFirstErroneousStep, h1, hR]
    cases hO : originStepFails form errors
    · cases hD : destinationStepFails form errors
      · cases hP : packagesStepFails errors
        · cases hRa : ratesStepFails errors <;> simp [hO, hD, hP, hRa]
        · simp [hO, hD, hP]
      · simp [hO, hD]
    · simp [hO]
  · obtain ⟨flags, hfl, heq⟩ := Option.map_eq_some'.mp h2
    rw [← heq]
    exact submittedFlags_spec form.customs (usedProductIds form.packages) flags hfl
  · intro hO hD hP hR
    simp only [getFirstErroneousStep, h1, hO, hD, hP, hR]
    cases hC : customsErrorsHaveNonEmptyLeaves errors.customs
    · rw [h2]
      cases hS : submitted
      · simp
      · cases hRa : ratesStepFails errors <;> simp [hRa]
    · simp

/-- C2: counterexample — a form whose single used product has its tariff
number present (so it counts as reviewed under the claim's
tariff-present-OR-ignoring reading) and whose customs error map has no
non-empty leaf, yet `getFirstErroneousStep` reports "customs": the source
treats a set `ignoreWeightValidation` flag as NOT submitted. -/
theorem c2_counterexample :
    ((usedProductIds c2form.packages).all (fun pid =>
      ((slookup c2form.customs.items pid).map
        (fun it => it.tariffNumber.isSome)).getD false)) = true ∧
    getBool c2form.customs.ignoreWeightValidation "p1" = true ∧
    (getFormErrors defaultCtx "a4" c2form).map
      (fun e => customsErrorsHaveNonEmptyLeaves e.customs) = some false ∧
    isCustomsFormRequired defaultCtx c2form = true ∧
    getFirstErroneousStep defaultCtx "a4" c2form = some (some "customs") := by
  refine ⟨by decide, by decide, by with_unfolding_all decide, by decide, ?_⟩
  with_unfolding_all decide

/-- C2 witness: the amended theorem applied to the concrete form — the
submitted flag is false exactly because the reviewed-means-tariff-present-
AND-not-ignoring condition fails for the product with the set
ignore-weight flag. -/
theorem c2_witness :
    (false = true ↔ ∀ pid ∈ usedProductIds c2form.packages,
      ((slookup c2form.customs.items pid).map (fun it =>
        it.tariffNumber.isSome && !getBool c2form.customs.ignoreWeightValidation pid &&
        !getBool c2form.customs.ignoreValueValidation pid)).getD false = true) := by
  have hfs : (getFormErrors defaultCtx "a4" c2form).isSome = true := by
    with_unfolding_all decide
  have h1 : getFormErrors defaultCtx "a4" c2form =
      some ((getFormErrors defaultCtx "a4" c2form).getD emptyFormErrors) := by
    rcases h : getFormErrors defaultCtx "a4" c2form with _ | v
    · rw [h] at hfs
      exact absurd hfs (by simp)
    · rfl
  exact (c2_amended defaultCtx "a4" c2form
    ((getFormErrors defaultCtx "a4" c2form).getD emptyFormErrors) false h1
    (by decide)).2.1
